import Mathlib

/-!
Verification of the governance/compliance subsystem of `specify_cli`
(rule parsing, waiver store, guide cache, compliance checker, report
generator) against its natural-language specification.

The Python modules are shallowly embedded: file contents are `List Char`
(`Str`), the filesystem is an explicit association of paths to contents,
`yaml.safe_load` (an external library) is an oracle parameter, and the
specific regular expressions used by the source are hand-compiled to
executable scanners over `Str` that follow the Python `re` semantics
(leftmost search, lazy/greedy backtracking order) of the concrete
patterns appearing in the source.  Wall-clock timestamps are passed in
as parameters; the `timestamp` field of evaluation results (a
`default_factory` reading the clock) is omitted from the embedded
record.  Logging and the metrics singleton have no effect on any value
returned by the embedded functions and are not modelled.
-/

namespace Governance

set_option maxRecDepth 16384

deriving instance DecidableEq for Except

/-- File contents, as a list of characters. -/
abbrev Str := List Char

/-- Python `str.isspace` characters relevant to `str.strip()`:
space, tab, newline, carriage return, vertical tab, form feed. -/
def isPySpace (c : Char) : Bool :=
  c = ' ' || c = '\t' || c = '\n' || c = '\r' ||
  c = Char.ofNat 11 || c = Char.ofNat 12

/-- Python `str.strip()` on a character list: drop leading and trailing
whitespace. -/
def pyStrip (cs : Str) : Str :=
  ((cs.dropWhile isPySpace).reverse.dropWhile isPySpace).reverse

/-- Python `str.strip()` on a `String`. -/
def pyStripS (s : String) : String :=
  (pyStrip s.toList).asString

/-- Python `file.readlines()`: split into lines, each keeping its
trailing newline; a final fragment without a newline is kept as is;
an empty file gives no lines. -/
def pyReadlines : Str → List Str
  | [] => []
  | c :: t =>
    if c = '\n' then ['\n'] :: pyReadlines t
    else match pyReadlines t with
      | [] => [[c]]
      | l :: ls => (c :: l) :: ls

/-- Python `str.split(sep)` for a one-character separator: keeps empty
pieces, `"".split(c) = [""]`. -/
def splitOnChar (sep : Char) : Str → List Str
  | [] => [[]]
  | c :: t =>
    if c = sep then [] :: splitOnChar sep t
    else match splitOnChar sep t with
      | [] => [[c]]
      | p :: ps => (c :: p) :: ps

def isAsciiDigit (c : Char) : Bool := '0' ≤ c && c ≤ '9'

/-- Numeric value of a list of ASCII digits (Python `int()` of the
digit run captured by `\d+`). -/
def natOfDigits (ds : Str) : Nat :=
  ds.foldl (fun a c => 10 * a + (c.toNat - '0'.toNat)) 0

/-- Substring test: does `pat` occur (contiguously) anywhere in `s`?
(Python `pat in s`.) -/
def occursIn (pat s : Str) : Bool :=
  (List.range (s.length + 1)).any (fun i => pat.isPrefixOf (s.drop i))

/-- The waiver record (`waiver.Waiver`).  The constructor's
`related_rules or []` normalisation is applied by `mkWaiver`. -/
structure Waiver where
  waiver_id : String
  reason : String
  timestamp : String
  related_rules : List String
  created_by : Option String
  deriving DecidableEq, Repr

/-- `Waiver.__init__`: `self.related_rules = related_rules or []`
(both `None` and `[]` become `[]`). -/
def mkWaiver (wid reason ts : String) (rr : Option (List String))
    (cb : Option String) : Waiver :=
  { waiver_id := wid, reason := reason, timestamp := ts,
    related_rules := rr.getD [], created_by := cb }

/-! ### Waiver id generation (`WaiverManager.generate_waiver_id`) -/

/-- `re.match(r'W-(\d+)', waiver_id)` then `int(group(1))`: anchored at
the start, `W-` followed by at least one digit; the greedy digit run is
converted to a number. -/
def extractWidNum (wid : String) : Option Nat :=
  match wid.toList with
  | 'W' :: '-' :: rest =>
    let ds := rest.takeWhile isAsciiDigit
    if ds.isEmpty then none else some (natOfDigits ds)
  | _ => none

/-- Python `f"W-{n:03d}"`: decimal, zero-padded on the left to at least
three digits. -/
def formatWid (n : Nat) : String :=
  let s := toString n
  "W-" ++ (if s.length < 3 then String.mk (List.replicate (3 - s.length) '0') ++ s else s)

/-- `WaiverManager.generate_waiver_id`. -/
def generate_waiver_id (existing : List Waiver) : String :=
  if existing.isEmpty then "W-001"
  else
    let maxNum := (existing.filterMap (fun w => extractWidNum w.waiver_id)).foldl Nat.max 0
    formatWid (maxNum + 1)

/-! ### Waiver serialization (`WaiverManager.format_waiver_entry`,
`append_to_waivers_file`) -/

/-- Python `", ".join(l)`. -/
def joinComma : List String → String
  | [] => ""
  | [x] => x
  | x :: xs => x ++ ", " ++ joinComma xs

/-- `WaiverManager.format_waiver_entry`.  `if created_by:` and
`if related_rules:` are Python truthiness tests, so an empty string or
empty list writes no line. -/
def format_waiver_entry (wid reason ts : String) (rr : List String)
    (cb : Option String) : String :=
  "\n## Waiver: " ++ wid ++ "\n" ++
  "- **Reason**: " ++ reason ++ "\n" ++
  "- **Timestamp**: " ++ ts ++ "\n" ++
  (match cb with
   | some s => if s = "" then "" else "- **Created By**: " ++ s ++ "\n"
   | none => "") ++
  (if rr.isEmpty then "" else
    "- **Related Rules**: [" ++ joinComma rr ++ "]\n")

/-- The fixed header written when the waivers file is first created. -/
def waiversHeader : String :=
  "# Compliance Waivers\n\n" ++
  "Formal exceptions to compliance requirements.\n" ++
  "All entries are immutable and timestamped for audit trail purposes.\n"

/-- `WaiverManager.append_to_waivers_file`: the waivers file is modelled
as `Option String` (`none` = absent); the function returns the new file
content. -/
def append_to_waivers_file (wfile : Option String) (w : Waiver) : String :=
  (match wfile with
   | none => waiversHeader
   | some c => c) ++
  format_waiver_entry w.waiver_id w.reason w.timestamp w.related_rules w.created_by

/-! ### Waiver parsing (`WaiverManager.parse_waivers_file`)

The source splits the file with
`re.finditer(r'## Waiver: (W-\d+)\n((?:.*?\n)*?)(?=## Waiver:|$)', content)`
and extracts fields from each section with
`re.search(r'- \*\*Reason\*\*: (.+?)(?:\n|$)', s)` (same shape for
`Timestamp` and `Created By`) and
`re.search(r'- \*\*Related Rules\*\*: \[(.+?)\]', s)`.
The scanners below compile those concrete patterns:
`searchField` finds the leftmost marker occurrence followed by at least
one non-newline character and captures up to the newline;
`findSections` finds non-overlapping header matches left to right, the
lazy body taking whole lines until the `(?=## Waiver:|$)` lookahead
holds (`$` = end, or just before a final newline). -/

/-- Split at the first newline: `(line without newline, rest after it)`. -/
def splitFirstNl : Str → Option (Str × Str)
  | [] => none
  | c :: cs =>
    if c = '\n' then some ([], cs)
    else (splitFirstNl cs).map (fun p => (c :: p.1, p.2))

theorem splitFirstNl_length (cs : Str) : ∀ line rest,
    splitFirstNl cs = some (line, rest) → rest.length < cs.length := by
  induction cs with
  | nil => intro line rest h; simp [splitFirstNl] at h
  | cons c t ih =>
    intro line rest h
    rw [splitFirstNl] at h
    by_cases hc : c = '\n'
    · rw [if_pos hc] at h
      cases h
      simp
    · rw [if_neg hc] at h
      cases hsp : splitFirstNl t with
      | none => rw [hsp] at h; simp at h
      | some p =>
        rw [hsp] at h
        simp only [Option.map_some', Option.some.injEq, Prod.mk.injEq] at h
        have hlt := ih p.1 p.2 (by rw [hsp])
        rw [← h.2]
        simp only [List.length_cons]
        omega

/-- `re.search(marker + r'(.+?)(?:\n|$)', s)`: leftmost occurrence of
the literal `marker` followed by a nonempty run of non-newline
characters; the capture runs to the next newline or the end. -/
def searchField (marker : Str) : Str → Option Str
  | [] => none
  | c :: t =>
    if marker.isPrefixOf (c :: t) then
      let v := ((c :: t).drop marker.length).takeWhile (fun x => x ≠ '\n')
      if v.isEmpty then searchField marker t else some v
    else searchField marker t

/-- Characters up to the first `]`, failing on a newline or the end
(the lazy `(.+?)\]` tail of the Related Rules pattern, after its first
captured character). -/
def takeToBracket : Str → Option Str
  | [] => none
  | c :: t =>
    if c = ']' then some []
    else if c = '\n' then none
    else (takeToBracket t).map (c :: ·)

def rulesMarker : Str := "- **Related Rules**: [".toList

/-- `re.search(r'- \*\*Related Rules\*\*: \[(.+?)\]', s)`: leftmost
occurrence of the marker whose bracket closes on the same line with a
nonempty capture. -/
def searchRules : Str → Option Str
  | [] => none
  | c :: t =>
    if rulesMarker.isPrefixOf (c :: t) then
      match (c :: t).drop rulesMarker.length with
      | [] => searchRules t
      | a :: rest =>
        if a = '\n' then searchRules t
        else match takeToBracket rest with
          | some inner => some (a :: inner)
          | none => searchRules t
    else searchRules t

def lookMarker : Str := "## Waiver:".toList
def headMarker : Str := "## Waiver: ".toList
def reasonMarker : Str := "- **Reason**: ".toList
def tsMarker : Str := "- **Timestamp**: ".toList
def cbMarker : Str := "- **Created By**: ".toList

mutual

/-- The lazy section body before the lookahead: whole
newline-terminated lines, stopping as soon as the lookahead holds at a
line start (the next characters are `## Waiver:`, or the end of the
string, or a single final newline remains).  `none` when the body
cannot be extended to a position where the lookahead holds (final
fragment without a newline): the whole header match then fails, as in
`re`. -/
def takeBody : Str → Option (Str × Str)
  | [] => some ([], [])
  | c :: t =>
    if lookMarker.isPrefixOf (c :: t) then some ([], c :: t)
    else if c = '\n' && t.isEmpty then some ([], ['\n'])
    else if c = '\n' then (takeBody t).map (fun p => ('\n' :: p.1, p.2))
    else (takeBodyLine t).map (fun p => (c :: p.1, p.2))

/-- The mid-line state of the body scanner. -/
def takeBodyLine : Str → Option (Str × Str)
  | [] => none
  | c :: t =>
    if c = '\n' then (takeBody t).map (fun p => ('\n' :: p.1, p.2))
    else (takeBodyLine t).map (fun p => (c :: p.1, p.2))

end

theorem takeBody_length_le (cs : Str) :
    (∀ b r, takeBody cs = some (b, r) → r.length ≤ cs.length) ∧
    (∀ b r, takeBodyLine cs = some (b, r) → r.length ≤ cs.length) := by
  induction cs with
  | nil =>
    constructor
    · intro b r h
      rw [takeBody] at h
      cases h
      simp
    · intro b r h
      rw [takeBodyLine] at h
      simp at h
  | cons c t ih =>
    constructor
    · intro b r h
      rw [takeBody] at h
      by_cases h1 : lookMarker.isPrefixOf (c :: t)
      · rw [if_pos h1] at h
        cases h
        simp
      · rw [if_neg h1] at h
        by_cases h2 : (decide (c = '\n') && t.isEmpty) = true
        · rw [if_pos h2] at h
          cases h
          simp at h2
          simp [h2.2]
        · rw [if_neg h2] at h
          by_cases h3 : c = '\n'
          · rw [if_pos h3] at h
            simp only [Option.map_eq_some'] at h
            obtain ⟨p, hp, hpe⟩ := h
            have := ih.1 p.1 p.2 (by rw [hp])
            have hr : r = p.2 := (Prod.mk.injEq _ _ _ _ ▸ hpe).2.symm
            rw [hr]
            simp only [List.length_cons]
            omega
          · rw [if_neg h3] at h
            simp only [Option.map_eq_some'] at h
            obtain ⟨p, hp, hpe⟩ := h
            have := ih.2 p.1 p.2 (by rw [hp])
            have hr : r = p.2 := (Prod.mk.injEq _ _ _ _ ▸ hpe).2.symm
            rw [hr]
            simp only [List.length_cons]
            omega
    · intro b r h
      rw [takeBodyLine] at h
      by_cases h3 : c = '\n'
      · rw [if_pos h3] at h
        simp only [Option.map_eq_some'] at h
        obtain ⟨p, hp, hpe⟩ := h
        have := ih.1 p.1 p.2 (by rw [hp])
        have hr : r = p.2 := (Prod.mk.injEq _ _ _ _ ▸ hpe).2.symm
        rw [hr]
        simp only [List.length_cons]
        omega
      · rw [if_neg h3] at h
        simp only [Option.map_eq_some'] at h
        obtain ⟨p, hp, hpe⟩ := h
        have := ih.2 p.1 p.2 (by rw [hp])
        have hr : r = p.2 := (Prod.mk.injEq _ _ _ _ ▸ hpe).2.symm
        rw [hr]
        simp only [List.length_cons]
        omega

/-- One attempt of the section pattern at the current position:
`## Waiver: ` then `W-`, a nonempty greedy digit run, a newline, and
the lazy body.  Returns the captured id, the body and the rest of the
input after the match (the lookahead consumes nothing). -/
def tryHeader (cs : Str) : Option (String × Str × Str) :=
  if headMarker.isPrefixOf cs then
    let after := cs.drop headMarker.length
    if ['W', '-'].isPrefixOf after then
      let rest := after.drop 2
      let ds := rest.takeWhile isAsciiDigit
      if ds.isEmpty then none
      else if ['\n'].isPrefixOf (rest.drop ds.length) then
        match takeBody ((rest.drop ds.length).drop 1) with
        | some (body, rest3) => some ("W-" ++ ds.asString, body, rest3)
        | none => none
      else none
    else none
  else none

theorem isPrefixOf_length_le {p l : Str} (h : p.isPrefixOf l) :
    p.length ≤ l.length :=
  (List.isPrefixOf_iff_prefix.mp h).sublist.length_le

theorem tryHeader_length_lt (cs : Str) (wid : String) (body rest : Str)
    (h : tryHeader cs = some (wid, body, rest)) : rest.length < cs.length := by
  rw [tryHeader] at h
  by_cases h1 : headMarker.isPrefixOf cs
  case neg => rw [if_neg h1] at h; simp at h
  rw [if_pos h1] at h
  simp only [] at h
  by_cases h2 : List.isPrefixOf ['W', '-'] (cs.drop headMarker.length)
  case neg => rw [if_neg h2] at h; simp at h
  rw [if_pos h2] at h
  by_cases h3 : (((cs.drop headMarker.length).drop 2).takeWhile isAsciiDigit).isEmpty
  case pos => rw [if_pos h3] at h; simp at h
  rw [if_neg h3] at h
  by_cases h4 : List.isPrefixOf ['\n']
      (((cs.drop headMarker.length).drop 2).drop
        (((cs.drop headMarker.length).drop 2).takeWhile isAsciiDigit).length)
  case neg => rw [if_neg h4] at h; simp at h
  rw [if_pos h4] at h
  cases htb : takeBody ((((cs.drop headMarker.length).drop 2).drop
      (((cs.drop headMarker.length).drop 2).takeWhile isAsciiDigit).length).drop 1) with
  | none => rw [htb] at h; simp at h
  | some p =>
    rw [htb] at h
    simp only [Option.some.injEq, Prod.mk.injEq] at h
    have hr : rest = p.2 := h.2.2.symm
    have hle := (takeBody_length_le _).1 p.1 p.2 (by rw [htb])
    have la : headMarker.length ≤ cs.length := isPrefixOf_length_le h1
    have lb : 2 ≤ (cs.drop headMarker.length).length := by
      have := isPrefixOf_length_le h2
      simpa using this
    have lc : 1 ≤ (((cs.drop headMarker.length).drop 2).drop
        (((cs.drop headMarker.length).drop 2).takeWhile isAsciiDigit).length).length := by
      have := isPrefixOf_length_le h4
      simpa using this
    have hmlen : headMarker.length = 11 := by decide
    rw [hr]
    simp only [List.length_drop] at lb lc hle ⊢
    omega

/-- `re.finditer` over the section pattern: non-overlapping matches,
scanning left to right; a failed attempt advances one character.  The
fuel argument (any value at least the input length, see
`findSectionsF_stable`) makes the definition structurally recursive and
hence kernel-computable. -/
def findSectionsF : Nat → Str → List (String × Str)
  | 0, _ => []
  | _ + 1, [] => []
  | fuel + 1, c :: t =>
    match tryHeader (c :: t) with
    | some (wid, body, rest) => (wid, body) :: findSectionsF fuel rest
    | none => findSectionsF fuel t

def findSections (cs : Str) : List (String × Str) :=
  findSectionsF cs.length cs

theorem findSectionsF_stable (fuel : Nat) : ∀ (cs : Str) (fuel2 : Nat),
    cs.length ≤ fuel → cs.length ≤ fuel2 →
    findSectionsF fuel cs = findSectionsF fuel2 cs := by
  induction fuel using Nat.strong_induction_on with
  | _ fuel ih =>
    intro cs fuel2 h1 h2
    cases cs with
    | nil =>
      cases fuel <;> cases fuel2 <;> rfl
    | cons c t =>
      cases fuel with
      | zero => simp at h1
      | succ f =>
        cases fuel2 with
        | zero => simp at h2
        | succ f2 =>
          rw [findSectionsF, findSectionsF]
          simp only [List.length_cons] at h1 h2
          cases hth : tryHeader (c :: t) with
          | some trip =>
            obtain ⟨wid, body, rest⟩ := trip
            have hlt := tryHeader_length_lt (c :: t) wid body rest hth
            simp only [List.length_cons] at hlt
            have hr1 : rest.length ≤ f := by omega
            have hr2 : rest.length ≤ f2 := by omega
            simp only []
            rw [ih f (by omega) rest f2 hr1 hr2]
          | none =>
            have ht1 : t.length ≤ f := by omega
            have ht2 : t.length ≤ f2 := by omega
            rw [ih f (by omega) t f2 ht1 ht2]

/-- The unfolding of `findSections` at adequate fuel. -/
theorem findSections_eq (cs : Str) :
    findSections cs = (match cs with
      | [] => []
      | c :: t =>
        match tryHeader (c :: t) with
        | some (wid, body, rest) => (wid, body) :: findSections rest
        | none => findSections t) := by
  cases cs with
  | nil => rfl
  | cons c t =>
    show findSectionsF (c :: t).length (c :: t) = _
    simp only [List.length_cons]
    rw [findSectionsF]
    cases hth : tryHeader (c :: t) with
    | some trip =>
      obtain ⟨wid, body, rest⟩ := trip
      have hlt := tryHeader_length_lt (c :: t) wid body rest hth
      simp only [List.length_cons] at hlt
      simp only [findSections]
      rw [findSectionsF_stable t.length rest rest.length (by omega) (by omega)]
    | none =>
      simp only [findSections]

/-- Field extraction from one section body
(`ComplianceChecker` counterpart: `WaiverManager.parse_waivers_file`'s
per-section block).  A section missing `Reason` or `Timestamp` is
skipped. -/
def parseSection (wid : String) (body : Str) : Option Waiver :=
  match searchField reasonMarker body, searchField tsMarker body with
  | some r, some t =>
    some (mkWaiver wid r.asString t.asString
      ((searchRules body).map (fun s =>
        (splitOnChar ',' s).map (fun x => (pyStrip x).asString)))
      ((searchField cbMarker body).map (fun s => s.asString)))
  | _, _ => none

/-- The body of `WaiverManager.parse_waivers_file` on file content. -/
def parseWaiversContent (cs : Str) : List Waiver :=
  (findSections cs).filterMap (fun p => parseSection p.1 p.2)

/-- `WaiverManager.parse_waivers_file`: empty list when the file does
not exist. -/
def parse_waivers_file (wfile : Option String) : List Waiver :=
  match wfile with
  | none => []
  | some c => parseWaiversContent c.toList

/-- `WaiverManager.get_waiver_by_id`. -/
def get_waiver_by_id (wfile : Option String) (wid : String) : Option Waiver :=
  (parse_waivers_file wfile).find? (fun w => w.waiver_id = wid)

/-- `WaiverManager.list_waivers`. -/
def list_waivers (wfile : Option String) : List Waiver :=
  parse_waivers_file wfile

/-- The Python exceptions the embedded code raises or catches. -/
inductive PyExc where
  | valueError (msg : String)
  | typeError (msg : String)
  | ruleParseError (msg : String)
  | fileNotFoundError (msg : String)
  deriving DecidableEq, Repr

/-- Python `str(e)` of an exception: its message. -/
def PyExc.text : PyExc → String
  | .valueError m => m
  | .typeError m => m
  | .ruleParseError m => m
  | .fileNotFoundError m => m

/-- `WaiverManager.create_waiver`.  The waivers file is `Option String`;
the UTC timestamp is a parameter (the source reads the clock).  Returns
the created waiver and the new file content, or the `ValueError` the
source raises.  `if not reason or not reason.strip():` is equivalent to
testing that the stripped reason is empty; the length check
`len(reason) > 500` is on the raw, untrimmed argument. -/
def create_waiver (wfile : Option String) (reason : String)
    (related_rules : Option (List String)) (created_by : Option String)
    (timestamp : String) : Except PyExc (Waiver × String) :=
  if pyStripS reason = "" then
    .error (.valueError "Waiver reason cannot be empty")
  else if reason.length > 500 then
    .error (.valueError "Waiver reason cannot exceed 500 characters")
  else
    let existing := parse_waivers_file wfile
    let wid := generate_waiver_id existing
    let w := mkWaiver wid (pyStripS reason) timestamp related_rules created_by
    .ok (w, append_to_waivers_file wfile w)

/-! ### Guide cache (`caching.GuideCacheManager`)

`_get_project_hash` folds `"{rel_path}:{mtime}"` of every markdown file
under the tracked directories through `hashlib.md5` (an external
library); its 32-hex-character digest is abstracted as a `String`
parameter passed to the embedded functions.  File paths are modelled by
their string form (`str(Path(s))`); the cache file is
`Option (Except String String)`: `none` = absent, `.error` = the read
raised, `.ok` = content. -/

def CACHE_EXPIRY_SECONDS : Int := 3600

/-- `GuideCacheManager._is_cache_valid`, with the existence of the cache
file, its age in seconds and the freshly recomputed project hash
supplied explicitly. -/
def is_cache_valid (cacheFileExists : Bool) (ageSeconds : Int)
    (currentHash cachedHash : String) : Bool :=
  if !cacheFileExists then false
  else if ageSeconds > CACHE_EXPIRY_SECONDS then false
  else if currentHash ≠ cachedHash then false
  else true

/-- `GuideCacheManager.get_guides`.  `cacheFile` is the state of the
cache file (absent / read error / content); `ageSeconds` its age when
statted; `currentHash` the freshly recomputed project hash.  Any
exception inside the `try` block (here: the read error) becomes `none`. -/
def get_guides (cacheFile : Option (Except String String))
    (ageSeconds : Int) (currentHash : String) : Option (List String) :=
  match cacheFile with
  | none => none
  | some (.error _) => none
  | some (.ok content) =>
    let lines := pyReadlines content.toList
    match lines with
    | [] => none
    | l0 :: rest =>
      let cachedHash := (pyStrip l0).asString
      if !is_cache_valid true ageSeconds currentHash cachedHash then none
      else some (rest.filterMap (fun l =>
        let p := (pyStrip l).asString
        if p ≠ "" then some p else none))

/-- `GuideCacheManager.save_guides`: the content written to the cache
file (hash line, then one path per line). -/
def save_guides_content (projectHash : String) (guides : List String) : String :=
  projectHash ++ "
" ++ String.join (guides.map (fun g => g ++ "
"))

/-! ### Python values (results of `yaml.safe_load`)

YAML mapping keys are modelled as strings (the guide schema only uses
string keys). -/

inductive PyVal where
  | pyNone
  | bool (b : Bool)
  | int (n : Int)
  | str (s : String)
  | list (xs : List PyVal)
  | dict (kvs : List (String × PyVal))

abbrev PyDict := List (String × PyVal)

/-- Python truthiness (`if v:`). -/
def pyTruthy : PyVal → Bool
  | .pyNone => false
  | .bool b => b
  | .int n => n != 0
  | .str s => s ≠ ""
  | .list xs => !xs.isEmpty
  | .dict kvs => !kvs.isEmpty

/-- `type(v).__name__`. -/
def pyTypeName : PyVal → String
  | .pyNone => "NoneType"
  | .bool _ => "bool"
  | .int _ => "int"
  | .str _ => "str"
  | .list _ => "list"
  | .dict _ => "dict"

mutual

/-- Python `repr(v)` (string escapes inside reprs are not reproduced;
no claim depends on the repr of a nested value). -/
def pyRepr : PyVal → String
  | .pyNone => "None"
  | .bool true => "True"
  | .bool false => "False"
  | .int n => toString n
  | .str s => "'" ++ s ++ "'"
  | .list xs => "[" ++ String.intercalate ", " (pyReprList xs) ++ "]"
  | .dict kvs => "\x7b" ++ String.intercalate ", " (pyReprDict kvs) ++ "\x7d"

def pyReprList : List PyVal → List String
  | [] => []
  | x :: xs => pyRepr x :: pyReprList xs

def pyReprDict : List (String × PyVal) → List String
  | [] => []
  | (k, v) :: xs => ("'" ++ k ++ "': " ++ pyRepr v) :: pyReprDict xs

end

/-- Python `str(v)`, as an f-string renders an interpolated value. -/
def pyStrVal : PyVal → String
  | .str s => s
  | v => pyRepr v

/-- `d.get(k)` for a mapping with string keys (YAML mappings have
unique keys, so first match suffices). -/
def dictGet (kvs : PyDict) (k : String) : Option PyVal :=
  (kvs.find? (fun p => p.1 = k)).map (fun p => p.2)

/-- `k in d`. -/
def dictHas (kvs : PyDict) (k : String) : Bool :=
  (dictGet kvs k).isSome

/-! ### Frontmatter extraction (`RuleParser.parse_frontmatter`)

The source matches `re.compile(r'^---\s*\n(.*?)\n---\s*\n',
re.DOTALL | re.MULTILINE).match(content)`: anchored `---`, a greedy
whitespace run whose last character consumed by `\s*\n` is a newline
(backtracking from the longest run), the lazy DOTALL body, then
`\n---` and again `\s*\n`.  The scanners below reproduce that
backtracking order exactly. -/

def fmDashes : Str := ['-', '-', '-']

/-- `\s*\n` with nothing after it in the pattern: greedy whitespace then
a newline, i.e. cut just after the last newline of the maximal
whitespace run; `none` when the run has no newline. -/
def wsRunThenNl (cs : Str) : Option Str :=
  let run := cs.takeWhile isPySpace
  match ((run.enum.filter (fun p => p.2 = '\n')).map (fun p => p.1)).getLast? with
  | some j => some (cs.drop (j + 1))
  | none => none

/-- The lazy `(.*?)\n---\s*\n` tail: scan for the earliest position
where `\n---` is followed by a whitespace run containing a newline;
returns (captured body, remaining content after the match). -/
def fmFindClose : Str → Option (Str × Str)
  | [] => none
  | c :: t =>
    if c = '\n' && fmDashes.isPrefixOf t then
      match wsRunThenNl (t.drop 3) with
      | some rem => some ([], rem)
      | none => (fmFindClose t).map (fun p => (c :: p.1, p.2))
    else (fmFindClose t).map (fun p => (c :: p.1, p.2))

/-- Opening `^---\s*\n`, longest whitespace choice first: for each
newline index inside the maximal whitespace run, in decreasing order,
try the lazy body from just after it. -/
def fmTryOpens (after : Str) : List Nat → Option (Str × Str)
  | [] => none
  | k :: ks =>
    match fmFindClose (after.drop (k + 1)) with
    | some r => some r
    | none => fmTryOpens after ks

/-- The full frontmatter pattern match: `some (group 1, content after
the match)` or `none`. -/
def frontmatterSplit (cs : Str) : Option (Str × Str) :=
  if fmDashes.isPrefixOf cs then
    let after := cs.drop 3
    let run := after.takeWhile isPySpace
    fmTryOpens after (((run.enum.filter (fun p => p.2 = '\n')).map (fun p => p.1)).reverse)
  else none

/-- `RuleParser.parse_frontmatter`.  `yamlLoad` is the external
`yaml.safe_load` oracle (`.error` = `yaml.YAMLError`); an empty YAML
document loads to `PyVal.pyNone`. -/
def parse_frontmatter (yamlLoad : String → Except String PyVal)
    (content : String) : Except PyExc (PyDict × String) :=
  match frontmatterSplit content.toList with
  | none => .ok ([], content)
  | some (body, rest) =>
    match yamlLoad body.asString with
    | .error e =>
      .error (.ruleParseError ("Malformed YAML in frontmatter: " ++ e ++
        "\nEnsure your frontmatter follows YAML syntax:\n---\nkey: value\nrules:\n  - id: rule-1\n---"))
    | .ok .pyNone => .ok ([], rest.asString)
    | .ok (.dict d) => .ok (d, rest.asString)
    | .ok v =>
      .error (.ruleParseError ("Invalid frontmatter: expected YAML mapping (key: value pairs), got " ++
        pyTypeName v ++ ". Frontmatter must be a YAML dictionary."))

/-! ### Rule schema validation (`RuleParser.validate_rule_structure`) -/

/-- `RULE_TYPE_SCHEMAS[t]['required']`. -/
def schemaRequired : String → Option (List String)
  | "file_exists" => some ["id", "type", "description", "path"]
  | "dependency_present" => some ["id", "type", "description", "file", "package"]
  | "text_includes" => some ["id", "type", "description", "file", "text"]
  | _ => none

/-- `rule_type not in RuleParser.RULE_TYPE_SCHEMAS`: dict-key lookup;
an unhashable key (list or dict) raises `TypeError` as in Python. -/
def schemaLookup : PyVal → Except PyExc (Option (List String))
  | .str s => .ok (schemaRequired s)
  | .list _ => .error (.typeError "unhashable type: 'list'")
  | .dict _ => .error (.typeError "unhashable type: 'dict'")
  | _ => .ok none

/-- The shared shape of `_validate_file_exists_rule` /
`_validate_dependency_present_rule` / `_validate_text_includes_rule`
for one field: must be a string with nonempty `strip()`. -/
def validateStrField (rule : PyDict) (ruleId fieldName exampleText : String) :
    Except PyExc Unit :=
  match (dictGet rule fieldName).getD .pyNone with
  | .str s =>
    if pyStripS s = "" then
      .error (.ruleParseError ("Rule '" ++ ruleId ++ "': '" ++ fieldName ++ "' cannot be empty"))
    else .ok ()
  | v =>
    .error (.ruleParseError ("Rule '" ++ ruleId ++ "': '" ++ fieldName ++
      "' must be a string, got " ++ pyTypeName v ++ ". Example: " ++ exampleText))

/-- `RuleParser.validate_rule_structure` (the caller passes
`rule.get('type')`; a missing key is `PyVal.pyNone` like Python's
`None`). -/
def validate_rule_structure (rule : PyDict) (ruleTypeArg : PyVal) :
    Except PyExc Bool :=
  let ruleType := match ruleTypeArg with
    | .pyNone => (dictGet rule "type").getD .pyNone
    | v => v
  let ruleId := pyStrVal ((dictGet rule "id").getD (.str "<unknown>"))
  if !dictHas rule "id" then
    .error (.ruleParseError "Missing required field 'id'. Every rule must have a unique identifier.")
  else if !dictHas rule "type" then
    .error (.ruleParseError ("Rule '" ++ ruleId ++
      "' missing required field 'type'. Supported types: file_exists, dependency_present, text_includes"))
  else if !dictHas rule "description" then
    .error (.ruleParseError ("Rule '" ++ ruleId ++
      "' missing required field 'description'. Provide a clear description of what this rule checks."))
  else
    match schemaLookup ruleType with
    | .error e => .error e
    | .ok none =>
      .error (.ruleParseError ("Rule '" ++ ruleId ++ "' has unknown type '" ++ pyStrVal ruleType ++
        "'. Supported types: file_exists, dependency_present, text_includes"))
    | .ok (some req) =>
      match req.find? (fun f => !dictHas rule f) with
      | some f =>
        .error (.ruleParseError ("Rule '" ++ ruleId ++ "' of type '" ++ pyStrVal ruleType ++
          "' missing required field '" ++ f ++ "'. Required fields: " ++ String.intercalate ", " req))
      | none =>
        match ruleType with
        | .str "file_exists" =>
          (validateStrField rule ruleId "path" "path: 'src/main.py'").map (fun _ => true)
        | .str "dependency_present" =>
          (validateStrField rule ruleId "file" "file: 'package.json'").bind (fun _ =>
            (validateStrField rule ruleId "package" "package: 'express'").map (fun _ => true))
        | .str "text_includes" =>
          (validateStrField rule ruleId "file" "file: 'README.md'").bind (fun _ =>
            (validateStrField rule ruleId "text" "text: 'License:'").map (fun _ => true))
        | _ => .ok true

/-! ### Rule extraction (`RuleParser.extract_rules`) -/

/-- The filesystem as seen through the project root: path → content
(plus bare directories, which only matter to `Path.exists`). -/
structure FS where
  files : List (String × String)
  dirs : List String := []

def FS.read (fs : FS) (p : String) : Option String :=
  (fs.files.find? (fun q => q.1 = p)).map (fun q => q.2)

/-- `Path.exists()` (true for files and directories). -/
def FS.pathExists (fs : FS) (p : String) : Bool :=
  (fs.read p).isSome || fs.dirs.contains p

/-- The per-rule validation loop of `extract_rules`: the `try`/`except
RuleParseError` wrapper adds the rule id (or index) context; other
exceptions (the `TypeError` of an unhashable `type:` value) pass
through. -/
def validateRulesList : List PyVal → Nat → Except PyExc Unit
  | [], _ => .ok ()
  | r :: rest, idx =>
    match r with
    | .dict d =>
      match validate_rule_structure d ((dictGet d "type").getD .pyNone) with
      | .ok _ => validateRulesList rest (idx + 1)
      | .error (.ruleParseError m) =>
        let rid := match dictGet d "id" with
          | some v => pyStrVal v
          | none => "<rule at index " ++ toString idx ++ ">"
        .error (.ruleParseError ("Error in rule '" ++ rid ++ "': " ++ m))
      | .error e => .error e
    | v =>
      .error (.ruleParseError ("Invalid rule at index " ++ toString idx ++
        ": expected dict, got " ++ pyTypeName v ++ ". Each rule must be a YAML object."))

/-- `RuleParser.extract_rules`. -/
def extract_rules (yamlLoad : String → Except String PyVal) (fs : FS)
    (guide : String) : Except PyExc (List PyVal) :=
  match fs.read guide with
  | none => .error (.fileNotFoundError ("Guide file not found: " ++ guide))
  | some content =>
    match parse_frontmatter yamlLoad content with
    | .error e => .error e
    | .ok (fm, _) =>
      if fm.isEmpty then .ok []
      else
        match (dictGet fm "rules").getD (.list []) with
        | .list rs =>
          match validateRulesList rs 0 with
          | .ok _ => .ok rs
          | .error e => .error e
        | v =>
          .error (.ruleParseError ("Invalid 'rules' field: expected list, got " ++ pyTypeName v ++
            ". Ensure rules are defined as a YAML list:\nrules:\n  - id: rule-1\n    ..."))

/-! ### Rule model and engine (`rules/*.py`, `rules/engine.py`)

Rule constructors keep the raw (possibly non-string) values the Python
`from_yaml` classmethods store; evaluation requires the string fields to
be strings, as the Python code does implicitly through `Path` and `in`
(a non-string raises, which `_evaluate_rule` turns into an ERROR). -/

inductive Rule where
  | fileExists (rule_id description path : PyVal)
  | dependencyPresent (rule_id description file pkg version : PyVal)
  | textIncludes (rule_id description file text case_sensitive : PyVal)

/-- `FileExistsRule.from_yaml`. -/
def fileExistsFromYaml (data : PyDict) : Except PyExc Rule :=
  let rid := (dictGet data "id").getD .pyNone
  let desc := (dictGet data "description").getD .pyNone
  let path := (dictGet data "path").getD .pyNone
  if !pyTruthy rid then .error (.valueError "Rule missing required field: 'id'")
  else if !pyTruthy desc then
    .error (.valueError ("Rule '" ++ pyStrVal rid ++ "' missing required field: 'description'"))
  else if !pyTruthy path then
    .error (.valueError ("Rule '" ++ pyStrVal rid ++ "' of type 'file_exists' missing required field: 'path'"))
  else .ok (.fileExists rid desc path)

/-- `DependencyPresentRule.from_yaml`. -/
def dependencyPresentFromYaml (data : PyDict) : Except PyExc Rule :=
  let rid := (dictGet data "id").getD .pyNone
  let desc := (dictGet data "description").getD .pyNone
  let file := (dictGet data "file").getD .pyNone
  let pkg := (dictGet data "package").getD .pyNone
  let version := (dictGet data "version").getD .pyNone
  if !pyTruthy rid then .error (.valueError "Rule missing required field: 'id'")
  else if !pyTruthy desc then
    .error (.valueError ("Rule '" ++ pyStrVal rid ++ "' missing required field: 'description'"))
  else if !pyTruthy file then
    .error (.valueError ("Rule '" ++ pyStrVal rid ++ "' of type 'dependency_present' missing required field: 'file'"))
  else if !pyTruthy pkg then
    .error (.valueError ("Rule '" ++ pyStrVal rid ++ "' of type 'dependency_present' missing required field: 'package'"))
  else .ok (.dependencyPresent rid desc file pkg version)

/-- `TextIncludesRule.from_yaml`. -/
def textIncludesFromYaml (data : PyDict) : Except PyExc Rule :=
  let rid := (dictGet data "id").getD .pyNone
  let desc := (dictGet data "description").getD .pyNone
  let file := (dictGet data "file").getD .pyNone
  let text := (dictGet data "text").getD .pyNone
  let cs := (dictGet data "case_sensitive").getD (.bool true)
  if !pyTruthy rid then .error (.valueError "Rule missing required field: 'id'")
  else if !pyTruthy desc then
    .error (.valueError ("Rule '" ++ pyStrVal rid ++ "' missing required field: 'description'"))
  else if !pyTruthy file then
    .error (.valueError ("Rule '" ++ pyStrVal rid ++ "' of type 'text_includes' missing required field: 'file'"))
  else if !pyTruthy text then
    .error (.valueError ("Rule '" ++ pyStrVal rid ++ "' of type 'text_includes' missing required field: 'text'"))
  else .ok (.textIncludes rid desc file text cs)

/-- `RuleEngine.create_rule(rule_type, **kwargs)`.
`RuleEngine.RULE_TYPES.get(rule_type)` hashes its key first, so an
unhashable `rule_type` (a list or a dict) raises `TypeError` before any
lookup — `ComplianceChecker._evaluate_rule` passes the whole parsed rule
dict as this positional argument. -/
def create_rule (ruleTypeArg : PyVal) (kwargs : PyDict) : Except PyExc Rule :=
  match ruleTypeArg with
  | .dict _ => .error (.typeError "unhashable type: 'dict'")
  | .list _ => .error (.typeError "unhashable type: 'list'")
  | .str "file_exists" => fileExistsFromYaml kwargs
  | .str "dependency_present" => dependencyPresentFromYaml kwargs
  | .str "text_includes" => textIncludesFromYaml kwargs
  | v =>
    .error (.valueError ("Unknown rule type: '" ++ pyStrVal v ++
      "'. Supported types: file_exists, dependency_present, text_includes"))

/-- The `{passed, message, details}` dictionary a rule's `evaluate`
returns. -/
structure EvalOutcome where
  passed : Bool
  message : String
  details : String
  deriving DecidableEq, Repr

/-- `Path(project_root) / rel` with the default root `Path(".")`
(pathlib drops `.` segments). -/
def pathJoin (root rel : String) : String :=
  if root = "." then rel else root ++ "/" ++ rel

/-- Python `str.lower()` (ASCII; guide texts in scope are ASCII). -/
def pyLower (s : String) : String :=
  (s.toList.map Char.toLower).asString

/-- Python `str.count(pat)` for nonempty `pat`: non-overlapping,
left to right. -/
def countOccurPos (pat : Str) : Str → Nat
  | [] => 0
  | c :: t =>
    if pat.isPrefixOf (c :: t) then 1 + countOccurPos pat (t.drop (pat.length - 1))
    else countOccurPos pat t
  termination_by s => s.length
  decreasing_by
    · have : (t.drop (pat.length - 1)).length ≤ t.length := by
        simp [List.length_drop]
      simp only [List.length_cons]
      omega
    · simp

/-- Python `str.replace(pat, "")` (left-to-right, non-overlapping). -/
def pyRemoveAll (pat : Str) : Str → Str
  | [] => []
  | c :: t =>
    if pat.isPrefixOf (c :: t) && !pat.isEmpty then pyRemoveAll pat (t.drop (pat.length - 1))
    else c :: pyRemoveAll pat t
  termination_by s => s.length
  decreasing_by
    · have : (t.drop (pat.length - 1)).length ≤ t.length := by
        simp [List.length_drop]
      simp only [List.length_cons]
      omega
    · simp

/-- The version token of `DependencyPresentRule.evaluate`:
`version.replace('>=','').replace('~','').replace('>','').replace('<','').replace('=','').strip()`. -/
def versionToken (version : String) : String :=
  (pyStrip (pyRemoveAll ['='] (pyRemoveAll ['<'] (pyRemoveAll ['>']
    (pyRemoveAll ['~'] (pyRemoveAll ['>', '='] version.toList)))))).asString

/-- `re.search(re.escape(pkg) + r'[^\n]*' + re.escape(tok), content,
re.IGNORECASE)`: somewhere in the text, the package name, a run of
non-newline characters, then the token, case-insensitively. -/
def depVersionFound (pkg tok content : Str) : Bool :=
  (List.range (content.length + 1)).any (fun i =>
    pkg.isPrefixOf (content.drop i) &&
    (let after := (content.drop i).drop pkg.length
     (List.range (after.length + 1)).any (fun j =>
       decide (j ≤ (after.takeWhile (fun c => c ≠ '\n')).length) &&
       tok.isPrefixOf (after.drop j))))

/-- `BaseRule.evaluate` implementations.  A non-string field raises in
Python (through `Path` or `in`); the embedded message abbreviates
CPython's `TypeError` text (this branch is unreachable from the
checker, which always fails earlier in `create_rule`). -/
def evaluateRule (fs : FS) (root : String) : Rule → Except PyExc EvalOutcome
  | .fileExists _ _ path =>
    match path with
    | .str p =>
      let fp := pathJoin root p
      let ex := fs.pathExists fp
      .ok { passed := ex,
            message := if ex then "✅ File exists at " ++ p else "❌ File not found at " ++ p,
            details := "Checked path: " ++ fp }
    | _ => .error (.typeError "unsupported path operand")
  | .dependencyPresent _ _ file pkg version =>
    match file, pkg with
    | .str f, .str p =>
      let manifest := pathJoin root f
      if !fs.pathExists manifest then
        .ok { passed := false, message := "❌ Manifest file not found: " ++ f,
              details := "Expected manifest at: " ++ manifest }
      else
        match fs.read manifest with
        | none =>
          .ok { passed := false, message := "❌ Could not read manifest file: " ++ f,
                details := "Error: unreadable: " ++ manifest }
        | some content =>
          if !occursIn p.toList content.toList then
            .ok { passed := false,
                  message := "❌ Package '" ++ p ++ "' not declared in " ++ f,
                  details := "Searched in: " ++ manifest }
          else if pyTruthy version then
            match version with
            | .str vs =>
              let tok := versionToken vs
              if depVersionFound (pyLower p).toList (pyLower tok).toList (pyLower content).toList then
                .ok { passed := true,
                      message := "✅ Package '" ++ p ++ "' declared with version constraint in " ++ f,
                      details := "Version requirement: " ++ vs }
              else
                .ok { passed := true,
                      message := "✅ Package '" ++ p ++ "' declared in " ++ f,
                      details := "Note: Version constraint '" ++ vs ++
                        "' not explicitly validated (semantic versioning deferred)" }
            | _ => .error (.typeError "unsupported version operand")
          else
            .ok { passed := true, message := "✅ Package '" ++ p ++ "' declared in " ++ f,
                  details := "Found in: " ++ manifest }
    | _, _ => .error (.typeError "unsupported path operand")
  | .textIncludes _ _ file text case_sensitive =>
    match file, text with
    | .str f, .str txt =>
      let fp := pathJoin root f
      if !fs.pathExists fp then
        .ok { passed := false, message := "❌ File not found: " ++ f,
              details := "Expected file at: " ++ fp }
      else
        match fs.read fp with
        | none =>
          .ok { passed := false, message := "❌ Could not read file: " ++ f,
                details := "Error: unreadable: " ++ fp }
        | some content =>
          let searchContent := if pyTruthy case_sensitive then content else pyLower content
          let searchText := if pyTruthy case_sensitive then txt else pyLower txt
          if occursIn searchText.toList searchContent.toList then
            let occurrences := countOccurPos searchText.toList searchContent.toList
            .ok { passed := true, message := "✅ Pattern found in " ++ f,
                  details := "Pattern '" ++ txt ++ "' found (" ++ toString occurrences ++
                    " occurrence" ++ (if occurrences ≠ 1 then "s" else "") ++ ")" }
          else
            .ok { passed := false, message := "❌ Pattern not found in " ++ f,
                  details := "Searched for: '" ++ txt ++ "' (case " ++
                    (if pyTruthy case_sensitive then "sensitive" else "insensitive") ++ ")" }
    | _, _ => .error (.typeError "unsupported path operand")

/-! ### Compliance checker (`compliance.py`) -/

inductive RuleStatus where
  | pass
  | fail
  | waived
  | error
  deriving DecidableEq, Repr

/-- `RuleEvaluationResult` (the clock-stamped `timestamp` field is
omitted; `rule_id`/`rule_type` are rendered to strings as the report
eventually does). -/
structure RuleEvaluationResult where
  rule_id : String
  rule_type : String
  status : RuleStatus
  message : String
  target : String
  guide_id : String
  division : Option String := none
  waiver_id : Option String := none
  deriving DecidableEq, Repr

/-- Assignment `m[k] = v` in an insertion-ordered map. -/
def assocSet (m : List (String × Waiver)) (k : String) (v : Waiver) :
    List (String × Waiver) :=
  if m.any (fun p => p.1 = k) then m.map (fun p => if p.1 = k then (k, v) else p)
  else m ++ [(k, v)]

def waiverMapGet (m : List (String × Waiver)) (k : String) : Option Waiver :=
  (m.find? (fun p => p.1 = k)).map (fun p => p.2)

/-- `ComplianceChecker._build_waiver_map`: later waivers overwrite
earlier ones for a shared rule id. -/
def build_waiver_map (waivers : List Waiver) : List (String × Waiver) :=
  waivers.foldl (fun m w => w.related_rules.foldl (fun m rid => assocSet m rid w) m) []

/-- `Path.stem`: final component, with its suffix removed when the last
dot is neither first nor last in the name. -/
def pathStem (p : String) : String :=
  let name := (p.toList.reverse.takeWhile (fun c => c ≠ '/')).reverse
  let dotIdxs := (name.enum.filter (fun q => q.2 = '.')).map (fun q => q.1)
  match dotIdxs.getLast? with
  | some i => if 0 < i ∧ i < name.length - 1 then (name.take i).asString else name.asString
  | none => name.asString

/-- `ComplianceChecker._evaluate_rule`.  The `try` block covers rule
construction and evaluation; any exception becomes an ERROR result.
Note the call `self.rule_engine.create_rule(rule_data)`: the parsed
rule dict is the `rule_type` positional argument. -/
def _evaluate_rule (fs : FS) (rule_data : PyDict) (guide_id : String)
    (waiver_map : List (String × Waiver)) : RuleEvaluationResult :=
  let rule_id := pyStrVal ((dictGet rule_data "id").getD (.str "unknown"))
  let rule_type := pyStrVal ((dictGet rule_data "type").getD (.str "unknown"))
  match (create_rule (.dict rule_data) []).bind (fun r => evaluateRule fs "." r) with
  | .error e =>
    { rule_id := rule_id, rule_type := rule_type, status := .error,
      message := "Error evaluating rule: " ++ e.text, target := "", guide_id := guide_id }
  | .ok ev =>
    match waiverMapGet waiver_map rule_id, ev.passed with
    | some w, false =>
      { rule_id := rule_id, rule_type := rule_type, status := .waived,
        message := "🚫 " ++ rule_id ++ " waived by " ++ w.waiver_id,
        target := ev.details, guide_id := guide_id, waiver_id := some w.waiver_id }
    | _, _ =>
      { rule_id := rule_id, rule_type := rule_type,
        status := if ev.passed then .pass else .fail,
        message := ev.message, target := ev.details, guide_id := guide_id }

/-- A validated rule is a dict (`extract_rules` guarantees it); the
fallback keeps the function total. -/
def asDict : PyVal → PyDict
  | .dict d => d
  | _ => []

/-- The per-guide body of `run_compliance_check`'s loop. -/
def processGuide (yamlLoad : String → Except String PyVal) (fs : FS)
    (waiver_map : List (String × Waiver)) (g : String) :
    List RuleEvaluationResult :=
  if !fs.pathExists g then
    [{ rule_id := "discovery-error", rule_type := "discovery", status := .error,
       message := "Guide file not found: " ++ g, target := g, guide_id := pathStem g }]
  else
    match extract_rules yamlLoad fs g with
    | .ok rules => rules.map (fun rd => _evaluate_rule fs (asDict rd) (pathStem g) waiver_map)
    | .error e =>
      [{ rule_id := "parse-error", rule_type := "parsing", status := .error,
         message := "Failed to parse guide: " ++ e.text, target := g, guide_id := pathStem g }]

def waiversFilePath : String := ".specify/waivers.md"

/-- `ComplianceChecker.run_compliance_check` on a caller-supplied guide
list (the `guides is None` discovery branch is outside every claim).
Metrics collection has no effect on the returned list and is omitted. -/
def run_compliance_check (yamlLoad : String → Except String PyVal) (fs : FS)
    (guides : List String) : List RuleEvaluationResult :=
  let waivers := list_waivers (fs.read waiversFilePath)
  let waiver_map := build_waiver_map waivers
  (guides.map (processGuide yamlLoad fs waiver_map)).flatten

/-! ### Report generator (`report.py`) -/

def countStatus (results : List RuleEvaluationResult) (st : RuleStatus) : Nat :=
  results.countP (fun r => r.status = st)

/-- The `overall_status` if-chain of
`ComplianceReportGenerator.generate_summary_section`. -/
def overall_status (results : List RuleEvaluationResult) : String :=
  if countStatus results .fail > 0 then "⚠️ PARTIAL (failures found)"
  else if countStatus results .error > 0 then "⚠️ PARTIAL (errors encountered)"
  else if results.length = 0 then "❓ NO RULES (no guides found)"
  else "✅ COMPLIANT (" ++ toString (countStatus results .pass) ++ " passed)"

/-- `ComplianceReportGenerator.generate_summary_section`. -/
def generate_summary_section (results : List RuleEvaluationResult) : String :=
  "## Summary\n\n" ++
  "**Overall Status**: " ++ overall_status results ++ "\n\n" ++
  "| Metric | Count |\n" ++
  "|--------|-------|\n" ++
  "| Total Rules | " ++ toString results.length ++ " |\n" ++
  "| ✅ Passed | " ++ toString (countStatus results .pass) ++ " |\n" ++
  "| ❌ Failed | " ++ toString (countStatus results .fail) ++ " |\n" ++
  "| 🚫 Waived | " ++ toString (countStatus results .waived) ++ " |\n" ++
  "| ⚠️ Errors | " ++ toString (countStatus results .error) ++ " |\n\n"

/-! ## Theorems -/

/-! ### Helper lemmas: folded maximum -/

theorem le_foldl_max_self (l : List Nat) (a : Nat) : a ≤ l.foldl Nat.max a := by
  induction l generalizing a with
  | nil => simp
  | cons x xs ih => exact le_trans (Nat.le_max_left a x) (ih (Nat.max a x))

theorem le_foldl_max_of_mem (l : List Nat) (a m : Nat) (hm : m ∈ l) :
    m ≤ l.foldl Nat.max a := by
  induction l generalizing a with
  | nil => simp at hm
  | cons x xs ih =>
    rcases List.mem_cons.mp hm with h | h
    · subst h
      exact le_trans (Nat.le_max_right a m) (le_foldl_max_self xs (Nat.max a m))
    · exact ih (Nat.max a x) h

theorem foldl_max_le (l : List Nat) (a m : Nat) (ha : a ≤ m)
    (h : ∀ x ∈ l, x ≤ m) : l.foldl Nat.max a ≤ m := by
  induction l generalizing a with
  | nil => simpa using ha
  | cons x xs ih =>
    exact ih (Nat.max a x) (Nat.max_le.mpr ⟨ha, h x (by simp)⟩)
      (fun y hy => h y (by simp [hy]))

/-- C6: for an empty waiver list `generate_waiver_id` returns `W-001`;
for a list whose regex-extracted numeric suffixes have maximum `m` it
returns `W-` followed by `m + 1` zero-padded to at least three digits
(`formatWid`). -/
theorem generate_waiver_id_spec :
    generate_waiver_id [] = "W-001" ∧
    ∀ (ws : List Waiver) (m : Nat),
      m ∈ ws.filterMap (fun w => extractWidNum w.waiver_id) →
      (∀ x ∈ ws.filterMap (fun w => extractWidNum w.waiver_id), x ≤ m) →
      generate_waiver_id ws = formatWid (m + 1) := by
  constructor
  · rfl
  · intro ws m hmem hub
    have hne : ¬ ws.isEmpty := by
      intro h
      rw [List.isEmpty_iff.mp h] at hmem
      simp at hmem
    rw [generate_waiver_id, if_neg hne]
    have h1 : (ws.filterMap (fun w => extractWidNum w.waiver_id)).foldl Nat.max 0 = m := by
      apply le_antisymm
      · exact foldl_max_le _ 0 m (Nat.zero_le m) hub
      · exact le_foldl_max_of_mem _ 0 m hmem
    rw [h1]

/-- Witness for C6 at a concrete waiver list with maximum suffix 10. -/
theorem generate_waiver_id_spec_witness :
    generate_waiver_id
      [mkWaiver "W-002" "a" "t" none none, mkWaiver "W-010" "b" "t" none none] = "W-011" := by
  have h := generate_waiver_id_spec.2
    [mkWaiver "W-002" "a" "t" none none, mkWaiver "W-010" "b" "t" none none] 10
    (by decide) (by decide)
  rw [h]
  decide

/-- C9: `extract_rules` on a path that does not exist on the filesystem
is the `FileNotFoundError`, not an empty list. -/
theorem extract_rules_missing_file (yamlLoad : String → Except String PyVal)
    (fs : FS) (guide : String) (h : fs.read guide = none) :
    extract_rules yamlLoad fs guide =
      .error (.fileNotFoundError ("Guide file not found: " ++ guide)) := by
  rw [extract_rules, h]

/-- Witness for C9 on the empty filesystem. -/
theorem extract_rules_missing_file_witness :
    FS.read { files := [], dirs := [] } "g.md" = none ∧
    extract_rules (fun _ => .ok .pyNone) { files := [], dirs := [] } "g.md" =
      .error (.fileNotFoundError ("Guide file not found: " ++ "g.md")) :=
  ⟨rfl, extract_rules_missing_file _ _ _ rfl⟩

/-- C10: `get_guides` yields `none` (never an exception) when the cache
file is absent, when reading it raises, and when it is empty; the
embedding's return type `Option (List String)` reflects that every
other content also yields a plain value. -/
theorem get_guides_error_handling :
    (∀ age h, get_guides none age h = none) ∧
    (∀ e age h, get_guides (some (.error e)) age h = none) ∧
    (∀ age h, get_guides (some (.ok "")) age h = none) := by
  refine ⟨fun age h => rfl, fun e age h => rfl, fun age h => rfl⟩

/-! ### C7: the overall status of the report summary -/

theorem string_append_ne_of_head (a b t : String)
    (ha : a.data ≠ []) (h : a.data.head? ≠ t.data.head?) : a ++ b ≠ t := by
  intro he
  apply h
  have hd : (a ++ b).data = t.data := by rw [he]
  rw [String.data_append] at hd
  rw [← hd]
  cases hae : a.data with
  | nil => exact absurd hae ha
  | cons c cs => simp [hae]

/-- C7: the overall status in the summary section is the COMPLIANT
string exactly when there are no FAIL and no ERROR results and at least
one result; the NO RULES string exactly when there are no results; and
one of the two PARTIAL strings in every other case. -/
theorem overall_status_spec (results : List RuleEvaluationResult) :
    (overall_status results =
        "✅ COMPLIANT (" ++ (toString (countStatus results .pass) ++ " passed)")
      ↔ countStatus results .fail = 0 ∧ countStatus results .error = 0 ∧
        0 < results.length) ∧
    (overall_status results = "❓ NO RULES (no guides found)" ↔ results.length = 0) ∧
    ((overall_status results = "⚠️ PARTIAL (failures found)" ∨
      overall_status results = "⚠️ PARTIAL (errors encountered)")
      ↔ 0 < results.length ∧
        (0 < countStatus results .fail ∨ 0 < countStatus results .error)) := by
  have hcount_le : ∀ st, countStatus results st ≤ results.length := by
    intro st
    exact List.countP_le_length _
  have hfail : countStatus results .fail = 0 ∨ 0 < countStatus results .fail :=
    Nat.eq_zero_or_pos _
  have herr : countStatus results .error = 0 ∨ 0 < countStatus results .error :=
    Nat.eq_zero_or_pos _
  have hlen : results.length = 0 ∨ 0 < results.length := Nat.eq_zero_or_pos _
  have hne1 : "✅ COMPLIANT (" ++ (toString (countStatus results .pass) ++ " passed)") ≠
      "⚠️ PARTIAL (failures found)" :=
    string_append_ne_of_head _ _ _ (by decide) (by decide)
  have hne2 : "✅ COMPLIANT (" ++ (toString (countStatus results .pass) ++ " passed)") ≠
      "⚠️ PARTIAL (errors encountered)" :=
    string_append_ne_of_head _ _ _ (by decide) (by decide)
  have hne3 : "✅ COMPLIANT (" ++ (toString (countStatus results .pass) ++ " passed)") ≠
      "❓ NO RULES (no guides found)" :=
    string_append_ne_of_head _ _ _ (by decide) (by decide)
  rcases hfail with hf | hf
  · rcases herr with he | he
    · rcases hlen with hl | hl
      · have hval : overall_status results = "❓ NO RULES (no guides found)" := by
          rw [overall_status, if_neg (by omega), if_neg (by omega), if_pos hl]
        refine ⟨?_, ?_, ?_⟩
        · rw [hval]
          constructor
          · intro hcontr; exact absurd hcontr.symm hne3
          · intro hcontr; omega
        · simp [hval, hl]
        · rw [hval]
          constructor
          · intro hcontr
            rcases hcontr with hc | hc <;> simp at hc
          · intro hcontr; omega
      · have hval : overall_status results =
            "✅ COMPLIANT (" ++ (toString (countStatus results .pass) ++ " passed)") := by
          rw [overall_status, if_neg (by omega), if_neg (by omega), if_neg (by omega)]
          rw [String.append_assoc]
        refine ⟨?_, ?_, ?_⟩
        · simp [hval, hf, he, hl]
        · rw [hval]
          constructor
          · intro hcontr; exact absurd hcontr hne3
          · intro hcontr; omega
        · rw [hval]
          constructor
          · intro hcontr
            rcases hcontr with hc | hc
            · exact absurd hc hne1
            · exact absurd hc hne2
          · intro hcontr; omega
    · have hval : overall_status results = "⚠️ PARTIAL (errors encountered)" := by
        rw [overall_status, if_neg (by omega), if_pos (by omega)]
      have hlpos : 0 < results.length := lt_of_lt_of_le he (hcount_le .error)
      refine ⟨?_, ?_, ?_⟩
      · rw [hval]
        constructor
        · intro hcontr; exact absurd hcontr.symm hne2
        · intro hcontr; omega
      · rw [hval]
        constructor
        · intro hcontr; simp at hcontr
        · intro hcontr; omega
      · rw [hval]
        constructor
        · intro _; exact ⟨hlpos, Or.inr he⟩
        · intro _; exact Or.inr rfl
  · have hval : overall_status results = "⚠️ PARTIAL (failures found)" := by
      rw [overall_status, if_pos (by omega)]
    have hlpos : 0 < results.length := lt_of_lt_of_le hf (hcount_le .fail)
    refine ⟨?_, ?_, ?_⟩
    · rw [hval]
      constructor
      · intro hcontr; exact absurd hcontr.symm hne1
      · intro hcontr; omega
    · rw [hval]
      constructor
      · intro hcontr; simp at hcontr
      · intro hcontr; omega
    · rw [hval]
      constructor
      · intro _; exact ⟨hlpos, Or.inl hf⟩
      · intro _; exact Or.inl rfl

/-! ### C3: `create_waiver` validation -/

/-- C3 counterexample: a 501-character reason whose trimmed form has
exactly 500 characters is rejected by `create_waiver` (the source
checks `len(reason) > 500` on the raw argument), although the claim —
which measures the limit after trimming — says this call must succeed. -/
theorem create_waiver_trim_counterexample :
    pyStripS (String.mk (List.replicate 500 'x') ++ " ") ≠ "" ∧
    (pyStripS (String.mk (List.replicate 500 'x') ++ " ")).length ≤ 500 ∧
    create_waiver none (String.mk (List.replicate 500 'x') ++ " ") none none "T" =
      .error (.valueError "Waiver reason cannot exceed 500 characters") := by
  refine ⟨by decide, by decide, by decide⟩

/-- C3 (amended): `create_waiver` fails — producing no new file
content — exactly when the reason trims to the empty string or the raw
(untrimmed) reason exceeds 500 characters; otherwise it assigns the
next generated id, appends exactly one formatted entry to the log
(creating it with the fixed header on first write, inside
`append_to_waivers_file`) and returns the constructed waiver.  In
particular `""`, `"   "` and `"x" * 501` fail, and `"x" * 500`
succeeds. -/
theorem create_waiver_spec :
    (∀ wfile reason rr cb ts,
      (∃ e, create_waiver wfile reason rr cb ts = Except.error e) ↔
        (pyStripS reason = "" ∨ reason.length > 500)) ∧
    (∀ wfile reason rr cb ts, pyStripS reason ≠ "" → reason.length ≤ 500 →
      create_waiver wfile reason rr cb ts =
        Except.ok
          (mkWaiver (generate_waiver_id (parse_waivers_file wfile)) (pyStripS reason) ts rr cb,
           append_to_waivers_file wfile
             (mkWaiver (generate_waiver_id (parse_waivers_file wfile)) (pyStripS reason) ts rr cb))) ∧
    (∀ wfile rr cb ts, ∃ e, create_waiver wfile "" rr cb ts = Except.error e) ∧
    (∀ wfile rr cb ts, ∃ e, create_waiver wfile "   " rr cb ts = Except.error e) ∧
    (∀ wfile rr cb ts, ∃ e,
      create_waiver wfile (String.mk (List.replicate 501 'x')) rr cb ts = Except.error e) ∧
    (∀ wfile rr cb ts, ∃ w c,
      create_waiver wfile (String.mk (List.replicate 500 'x')) rr cb ts = Except.ok (w, c)) := by
  have hmain : ∀ wfile reason rr cb ts, pyStripS reason ≠ "" → reason.length ≤ 500 →
      create_waiver wfile reason rr cb ts =
        Except.ok
          (mkWaiver (generate_waiver_id (parse_waivers_file wfile)) (pyStripS reason) ts rr cb,
           append_to_waivers_file wfile
             (mkWaiver (generate_waiver_id (parse_waivers_file wfile)) (pyStripS reason) ts rr cb)) := by
    intro wfile reason rr cb ts h1 h2
    rw [create_waiver, if_neg h1, if_neg (by omega)]
  have herr : ∀ wfile reason rr cb ts,
      (pyStripS reason = "" ∨ reason.length > 500) →
      ∃ e, create_waiver wfile reason rr cb ts = Except.error e := by
    intro wfile reason rr cb ts h
    rw [create_waiver]
    by_cases h1 : pyStripS reason = ""
    · exact ⟨_, by rw [if_pos h1]⟩
    · have h2 : reason.length > 500 := by tauto
      exact ⟨_, by rw [if_neg h1, if_pos h2]⟩
  refine ⟨?_, hmain, ?_, ?_, ?_, ?_⟩
  · intro wfile reason rr cb ts
    constructor
    · rintro ⟨e, he⟩
      by_cases h1 : pyStripS reason = ""
      · exact Or.inl h1
      · by_cases h2 : reason.length > 500
        · exact Or.inr h2
        · rw [hmain wfile reason rr cb ts h1 (by omega)] at he
          simp at he
    · exact herr wfile reason rr cb ts
  · intro wfile rr cb ts
    exact herr wfile "" rr cb ts (Or.inl (by decide))
  · intro wfile rr cb ts
    exact herr wfile "   " rr cb ts (Or.inl (by decide))
  · intro wfile rr cb ts
    exact herr wfile _ rr cb ts (Or.inr (by decide))
  · intro wfile rr cb ts
    exact ⟨_, _, hmain wfile _ rr cb ts (by decide) (by decide)⟩

/-- Witness for C3 at a concrete successful creation on a fresh log. -/
theorem create_waiver_spec_witness :
    pyStripS "needs waiver" ≠ "" ∧ "needs waiver".length ≤ 500 ∧
    create_waiver none "needs waiver" (some ["r1"]) (some "alice") "2025-01-01T00:00:00Z" =
      Except.ok
        (mkWaiver "W-001" "needs waiver" "2025-01-01T00:00:00Z" (some ["r1"]) (some "alice"),
         append_to_waivers_file none
           (mkWaiver "W-001" "needs waiver" "2025-01-01T00:00:00Z" (some ["r1"]) (some "alice"))) := by
  have h := create_waiver_spec.2.1 none "needs waiver" (some ["r1"]) (some "alice")
    "2025-01-01T00:00:00Z" (by decide) (by decide)
  have h2 : pyStripS "needs waiver" = "needs waiver" := by decide
  have h3 : generate_waiver_id (parse_waivers_file none) = "W-001" := by decide
  rw [h2, h3] at h
  exact ⟨by decide, by decide, h⟩

/-! ### C5: guide cache validity -/

theorem join_data_aux (l : List String) (a : String) :
    (l.foldl (fun r s => r ++ s) a).data = a.data ++ (l.map String.data).flatten := by
  induction l generalizing a with
  | nil => simp
  | cons x xs ih =>
    simp only [List.foldl_cons, List.map_cons, List.flatten_cons, ih,
      String.data_append, List.append_assoc]

theorem toList_join (l : List String) :
    (String.join l).toList = (l.map String.toList).flatten := by
  have h := join_data_aux l ""
  simpa [String.join] using h

theorem pyReadlines_line (l rest : Str) (hl : '\n' ∉ l) :
    pyReadlines (l ++ '\n' :: rest) = (l ++ ['\n']) :: pyReadlines rest := by
  induction l with
  | nil => simp [pyReadlines]
  | cons c t ih =>
    have hc : ¬ c = '\n' := fun h => hl (by simp [h])
    have ht : '\n' ∉ t := fun h => hl (List.mem_cons_of_mem _ h)
    rw [List.cons_append, pyReadlines, if_neg hc, ih ht]
    rfl

theorem pyReadlines_flat (gs : List Str) (h : ∀ g ∈ gs, '\n' ∉ g) :
    pyReadlines ((gs.map (fun g => g ++ ['\n'])).flatten) = gs.map (fun g => g ++ ['\n']) := by
  induction gs with
  | nil => rfl
  | cons g t ih =>
    simp only [List.map_cons, List.flatten_cons, List.append_assoc,
      List.singleton_append]
    rw [pyReadlines_line g _ (h g (by simp))]
    rw [ih (fun x hx => h x (by simp [hx]))]

/-- A string with no surrounding whitespace, no newline, and at least
one character: the shape `save_guides_content` round-trips. -/
def cleanToken (s : String) : Prop :=
  s.toList ≠ [] ∧ '\n' ∉ s.toList ∧
  s.toList.dropWhile isPySpace = s.toList ∧
  s.toList.reverse.dropWhile isPySpace = s.toList.reverse

theorem pyStrip_of_clean {cs : Str} (hne : cs ≠ [])
    (hd : cs.dropWhile isPySpace = cs)
    (hr : cs.reverse.dropWhile isPySpace = cs.reverse) :
    pyStrip (cs ++ ['\n']) = cs := by
  cases cs with
  | nil => exact absurd rfl hne
  | cons c t =>
    have hc : ¬ (isPySpace c = true) := by
      intro hcs
      rw [List.dropWhile_cons, if_pos hcs] at hd
      have := congrArg List.length hd
      have hle := List.Sublist.length_le (List.dropWhile_sublist (l := t) (p := isPySpace))
      simp at this
      omega
    have hr' : List.dropWhile isPySpace (t.reverse ++ [c]) = t.reverse ++ [c] := by
      simpa using hr
    rw [pyStrip]
    have h1 : (c :: t) ++ ['\n'] = c :: (t ++ ['\n']) := rfl
    rw [h1, List.dropWhile_cons, if_neg hc]
    have h2 : (c :: (t ++ ['\n'])).reverse = '\n' :: (t.reverse ++ [c]) := by simp
    rw [h2, List.dropWhile_cons, if_pos (by decide), hr']
    simp

theorem save_content_toList (h : String) (gs : List String) :
    (save_guides_content h gs).toList =
      h.toList ++ '\n' :: (gs.map (fun g => g.toList ++ ['\n'])).flatten := by
  rw [save_guides_content]
  show (h ++ "\n" ++ String.join (gs.map (fun g => g ++ "\n"))).data = _
  have hj : (String.join (gs.map (fun g => g ++ "\n"))).data
      = (gs.map (fun g => g.toList ++ ['\n'])).flatten := by
    have ht := toList_join (gs.map (fun g => g ++ "\n"))
    show (String.join (gs.map (fun g => g ++ "\n"))).toList = _
    rw [ht, List.map_map]
    have hf : (String.toList ∘ fun g => g ++ "\n") =
        fun g : String => g.toList ++ ['\n'] := by
      funext g
      show (g ++ "\n").data = g.data ++ ['\n']
      rw [String.data_append]
    rw [hf]
  simp only [String.data_append, hj]
  simp [List.append_assoc]

theorem filterMap_clean_lines (gs : List String) (hg : ∀ g ∈ gs, cleanToken g) :
    (gs.map (fun g => g.toList ++ ['\n'])).filterMap (fun l =>
      let p := (pyStrip l).asString
      if p ≠ "" then some p else none) = gs := by
  induction gs with
  | nil => rfl
  | cons g t ih =>
    obtain ⟨h1, h2, h3, h4⟩ := hg g (by simp)
    have hps : pyStrip (g.toList ++ ['\n']) = g.toList := pyStrip_of_clean h1 h3 h4
    have hne : g ≠ "" := by
      intro he
      rw [he] at h1
      exact h1 rfl
    simp only [List.map_cons, List.filterMap_cons, hps, String.asString_toList]
    rw [if_pos hne, ih (fun x hx => hg x (by simp [hx]))]

/-- C5 (amended): `get_guides` on an absent cache file is `none`; on the
content written by `save_guides` with stored hash `ph` and path list
`gs` — every entry a nonempty, newline-free, whitespace-trimmed string —
it is `none` exactly when the age exceeds the one-hour expiry or the
recomputed hash differs from the stored first line, and otherwise
returns exactly the saved list. -/
theorem get_guides_cache_spec :
    (∀ age ch, get_guides none age ch = none) ∧
    (∀ (ph ch : String) (gs : List String) (age : Int),
      cleanToken ph → (∀ g ∈ gs, cleanToken g) →
      ((get_guides (some (.ok (save_guides_content ph gs))) age ch = none ↔
          age > CACHE_EXPIRY_SECONDS ∨ ch ≠ ph) ∧
       (age ≤ CACHE_EXPIRY_SECONDS → ch = ph →
        get_guides (some (.ok (save_guides_content ph gs))) age ch = some gs))) := by
  constructor
  · intro age ch
    rfl
  · intro ph ch gs age hph hgs
    obtain ⟨p1, p2, p3, p4⟩ := hph
    have hct := save_content_toList ph gs
    have hlines : pyReadlines (save_guides_content ph gs).toList =
        (ph.toList ++ ['\n']) :: gs.map (fun g => g.toList ++ ['\n']) := by
      have hmm : gs.map (fun g => g.toList ++ ['\n']) =
          (gs.map String.toList).map (fun g => g ++ ['\n']) := by
        rw [List.map_map]
        rfl
      have hnl : ∀ g ∈ gs.map String.toList, '\n' ∉ g := by
        intro g hg
        obtain ⟨x, hx, hxe⟩ := List.mem_map.mp hg
        rw [← hxe]
        exact (hgs x hx).2.1
      rw [hct, pyReadlines_line _ _ p2, hmm, pyReadlines_flat _ hnl, ← hmm]
    have hhash : (pyStrip (ph.toList ++ ['\n'])).asString = ph := by
      rw [pyStrip_of_clean p1 p3 p4, String.asString_toList]
    have hred : get_guides (some (.ok (save_guides_content ph gs))) age ch =
        (if !is_cache_valid true age ch ph then none
         else some ((gs.map (fun g => g.toList ++ ['\n'])).filterMap (fun l =>
           let p := (pyStrip l).asString
           if p ≠ "" then some p else none))) := by
      show (match pyReadlines (save_guides_content ph gs).toList with
        | [] => none
        | l0 :: rest =>
          if !is_cache_valid true age ch ((pyStrip l0).asString) then none
          else some (rest.filterMap (fun l =>
            let p := (pyStrip l).asString
            if p ≠ "" then some p else none))) = _
      rw [hlines]
      simp only [hhash]
    rw [hred, filterMap_clean_lines gs hgs]
    by_cases hage : age > CACHE_EXPIRY_SECONDS
    · have hv : is_cache_valid true age ch ph = false := by
        rw [is_cache_valid, if_neg (by simp), if_pos hage]
      rw [hv]
      simp [hage]
    · by_cases hch : ch = ph
      · have hv : is_cache_valid true age ch ph = true := by
          rw [is_cache_valid, if_neg (by simp), if_neg hage, if_neg (by simp [hch])]
        rw [hv]
        simp [hage, hch]
      · have hv : is_cache_valid true age ch ph = false := by
          rw [is_cache_valid, if_neg (by simp), if_neg hage, if_pos (by simp [hch])]
        rw [hv]
        simp [hage, hch]

/-- Witness for C5 at a concrete saved cache. -/
theorem get_guides_cache_spec_witness :
    get_guides (some (.ok (save_guides_content "d41d8cd98f00b204e9800998ecf8427e"
      ["context/references/a.md", "specs/b.md"]))) 10
      "d41d8cd98f00b204e9800998ecf8427e" =
      some ["context/references/a.md", "specs/b.md"] := by
  have h := (get_guides_cache_spec.2 "d41d8cd98f00b204e9800998ecf8427e"
    "d41d8cd98f00b204e9800998ecf8427e" ["context/references/a.md", "specs/b.md"] 10
    (by constructor <;> decide)
    (by intro g hg; fin_cases hg <;> exact ⟨by decide, by decide, by decide, by decide⟩)).2
    (by decide) rfl
  exact h

/-- C5 counterexample: a saved path containing a newline.  The cache
file is present, fresh, and the hash matches, yet `get_guides` does not
return the saved list unchanged: the newline splits one saved path into
two cache lines. -/
theorem get_guides_cache_counterexample :
    get_guides (some (.ok (save_guides_content "d41d8cd98f00b204e9800998ecf8427e"
      ["a\nb.md"]))) 0 "d41d8cd98f00b204e9800998ecf8427e" = some ["a", "b.md"] ∧
    (["a", "b.md"] : List String) ≠ ["a\nb.md"] := by
  exact ⟨by decide, by decide⟩

/-! ### C1: rule classification in `_evaluate_rule` -/

/-- C1: `ComplianceChecker._evaluate_rule` passes the whole parsed rule
dict as `RuleEngine.create_rule`'s `rule_type` positional argument, so
the dict lookup raises `TypeError: unhashable type: 'dict'` and every
rule — here a valid `file_exists` rule whose target file exists, with
no waiver — is emitted as ERROR instead of PASS; the second conjunct
shows the rule itself evaluates to `passed = true`, and the third that
the same happens (ERROR instead of WAIVED/FAIL) for a failing rule
covered by a waiver. -/
theorem evaluate_rule_unhashable_bug :
    _evaluate_rule { files := [("README.md", "hello")], dirs := [] }
      [("id", .str "readme-exists"), ("type", .str "file_exists"),
       ("description", .str "README required"), ("path", .str "README.md")]
      "g" [] =
      { rule_id := "readme-exists", rule_type := "file_exists", status := .error,
        message := "Error evaluating rule: unhashable type: 'dict'",
        target := "", guide_id := "g" } ∧
    evaluateRule { files := [("README.md", "hello")], dirs := [] } "."
        (Rule.fileExists (.str "readme-exists") (.str "README required")
          (.str "README.md")) =
      .ok { passed := true, message := "✅ File exists at README.md",
            details := "Checked path: README.md" } ∧
    _evaluate_rule { files := [], dirs := [] }
      [("id", .str "tests-present"), ("type", .str "file_exists"),
       ("description", .str "tests required"), ("path", .str "tests/test_api.py")]
      "g" [("tests-present", mkWaiver "W-001" "r" "t" (some ["tests-present"]) none)] =
      { rule_id := "tests-present", rule_type := "file_exists", status := .error,
        message := "Error evaluating rule: unhashable type: 'dict'",
        target := "", guide_id := "g" } := by
  refine ⟨rfl, rfl, rfl⟩

/-! ### C4: a malformed guide never aborts the run -/

/-- C4: in a batch, a guide that exists but whose rule extraction fails
contributes exactly one ERROR result with rule id `parse-error`, rule
type `parsing` and the exception text in its message, and the rest of
the batch is processed exactly as it would be on its own. -/
theorem run_compliance_check_parse_isolation
    (yamlLoad : String → Except String PyVal) (fs : FS)
    (gs1 gs2 : List String) (g : String) (e : PyExc)
    (hex : fs.pathExists g = true)
    (herr : extract_rules yamlLoad fs g = .error e) :
    run_compliance_check yamlLoad fs (gs1 ++ g :: gs2) =
      run_compliance_check yamlLoad fs gs1 ++
      [{ rule_id := "parse-error", rule_type := "parsing", status := .error,
         message := "Failed to parse guide: " ++ e.text, target := g,
         guide_id := pathStem g }] ++
      run_compliance_check yamlLoad fs gs2 := by
  rw [run_compliance_check, run_compliance_check, run_compliance_check]
  simp only [List.map_append, List.map_cons, List.flatten_append, List.flatten_cons]
  have hpg : processGuide yamlLoad fs
      (build_waiver_map (list_waivers (fs.read waiversFilePath))) g =
      [{ rule_id := "parse-error", rule_type := "parsing", status := .error,
         message := "Failed to parse guide: " ++ e.text, target := g,
         guide_id := pathStem g }] := by
    rw [processGuide, if_neg (by simp [hex]), herr]
  rw [hpg]
  simp

/-- A concrete batch for the C4 witness: three guides, the middle one
with malformed YAML. -/
def sampleYamlLoad : String → Except String PyVal := fun s =>
  if s = "rules: []" then .ok (.dict [("rules", .list [])])
  else if s = "rules: [" then .error "while parsing a flow node"
  else if s = "rules:\n  - id: r1\n    type: file_exists\n    path: a.md\n    description: d" then
    .ok (.dict [("rules", .list [PyVal.dict
      [("id", .str "r1"), ("type", .str "file_exists"),
       ("path", .str "a.md"), ("description", .str "d")]])])
  else .ok .pyNone

def sampleFs : FS :=
  { files :=
      [("g1.md", "---\nrules: []\n---\nok\n"),
       ("g2.md", "---\nrules: [\n---\nbad\n"),
       ("g3.md", "---\nrules:\n  - id: r1\n    type: file_exists\n    path: a.md\n    description: d\n---\ntext\n"),
       ("a.md", "x")],
    dirs := [] }

def g2ParseErr : PyExc :=
  .ruleParseError ("Malformed YAML in frontmatter: while parsing a flow node" ++
    "\nEnsure your frontmatter follows YAML syntax:\n---\nkey: value\nrules:\n  - id: rule-1\n---")

/-- Witness for C4 on the three-guide batch: both hypotheses hold at
`g2.md` and the run splits around its single parse-error result. -/
theorem run_compliance_check_parse_isolation_witness :
    FS.pathExists sampleFs "g2.md" = true ∧
    extract_rules sampleYamlLoad sampleFs "g2.md" = .error g2ParseErr ∧
    run_compliance_check sampleYamlLoad sampleFs ["g1.md", "g2.md", "g3.md"] =
      run_compliance_check sampleYamlLoad sampleFs ["g1.md"] ++
      [{ rule_id := "parse-error", rule_type := "parsing", status := .error,
         message := "Failed to parse guide: " ++ g2ParseErr.text, target := "g2.md",
         guide_id := pathStem "g2.md" }] ++
      run_compliance_check sampleYamlLoad sampleFs ["g3.md"] := by
  refine ⟨rfl, rfl, ?_⟩
  exact run_compliance_check_parse_isolation sampleYamlLoad sampleFs
    ["g1.md"] ["g3.md"] "g2.md" g2ParseErr rfl rfl

/-! ### C8: `extract_rules` on valid guides -/

theorem validateRulesList_ok (rs : List PyVal)
    (h : ∀ r ∈ rs, ∃ d, r = PyVal.dict d ∧
      validate_rule_structure d ((dictGet d "type").getD .pyNone) = .ok true) :
    ∀ idx, validateRulesList rs idx = .ok () := by
  induction rs with
  | nil => intro idx; rfl
  | cons r t ih =>
    intro idx
    obtain ⟨d, hd, hv⟩ := h r (by simp)
    subst hd
    rw [validateRulesList, hv]
    exact ih (fun x hx => h x (by simp [hx])) (idx + 1)

/-- C8: for a readable guide, if the frontmatter block parses to a YAML
mapping whose `rules` entry is a list of syntactically valid rule
mappings, `extract_rules` returns exactly that list (all N of them, in
document order); and if the content has no leading frontmatter block,
it returns the empty list rather than an error. -/
theorem extract_rules_spec
    (yamlLoad : String → Except String PyVal) (fs : FS) (guide content : String)
    (hread : fs.read guide = some content) :
    (frontmatterSplit content.toList = none →
      extract_rules yamlLoad fs guide = .ok []) ∧
    (∀ body rest fm rs,
      frontmatterSplit content.toList = some (body, rest) →
      yamlLoad body.asString = .ok (.dict fm) →
      dictGet fm "rules" = some (.list rs) →
      (∀ r ∈ rs, ∃ d, r = PyVal.dict d ∧
        validate_rule_structure d ((dictGet d "type").getD .pyNone) = .ok true) →
      extract_rules yamlLoad fs guide = .ok rs) := by
  have hpf0 : ∀ r, frontmatterSplit content.toList = r →
      parse_frontmatter yamlLoad content = (match r with
        | none => .ok ([], content)
        | some (body, rest) =>
          match yamlLoad body.asString with
          | .error e =>
            .error (.ruleParseError ("Malformed YAML in frontmatter: " ++ e ++
              "\nEnsure your frontmatter follows YAML syntax:\n---\nkey: value\nrules:\n  - id: rule-1\n---"))
          | .ok .pyNone => .ok ([], rest.asString)
          | .ok (.dict d) => .ok (d, rest.asString)
          | .ok v =>
            .error (.ruleParseError ("Invalid frontmatter: expected YAML mapping (key: value pairs), got " ++
              pyTypeName v ++ ". Frontmatter must be a YAML dictionary."))) := by
    intro r hr
    rw [parse_frontmatter, hr]
  constructor
  · intro hfm
    have hpf := hpf0 _ hfm
    rw [extract_rules, hread]
    simp only [hpf]
    rfl
  · intro body rest fm rs hfm hyaml hrules hvalid
    have hfm_ne : ¬ fm.isEmpty := by
      intro he
      rw [List.isEmpty_iff.mp he] at hrules
      simp [dictGet] at hrules
    have hpf := hpf0 _ hfm
    simp only [hyaml] at hpf
    rw [extract_rules, hread]
    simp only [hpf]
    rw [if_neg hfm_ne]
    have hget : (dictGet fm "rules").getD (.list []) = .list rs := by
      rw [hrules]
      rfl
    rw [hget]
    simp only [validateRulesList_ok rs hvalid 0]

/-- The two valid rule dictionaries of the C8 witness guide. -/
def sampleRuleDicts : List PyVal :=
  [PyVal.dict [("id", .str "r1"), ("type", .str "file_exists"),
    ("description", .str "d1"), ("path", .str "a.md")],
   PyVal.dict [("id", .str "r2"), ("type", .str "text_includes"),
    ("description", .str "d2"), ("file", .str "b.md"), ("text", .str "T")]]

def sampleRulesYaml : String → Except String PyVal := fun s =>
  if s = "R" then .ok (.dict [("rules", .list sampleRuleDicts)])
  else .ok .pyNone

def sampleRulesFs : FS :=
  { files := [("g.md", "---\nR\n---\nbody\n")], dirs := [] }

/-- Witness for C8 on a concrete guide with two valid rules. -/
theorem extract_rules_spec_witness :
    FS.read sampleRulesFs "g.md" = some "---\nR\n---\nbody\n" ∧
    extract_rules sampleRulesYaml sampleRulesFs "g.md" = .ok sampleRuleDicts := by
  refine ⟨rfl, (extract_rules_spec sampleRulesYaml sampleRulesFs "g.md"
    "---\nR\n---\nbody\n" rfl).2
    "R".toList "body\n".toList [("rules", .list sampleRuleDicts)] sampleRuleDicts
    rfl rfl rfl ?_⟩
  intro r hr
  simp only [sampleRuleDicts, List.mem_cons, List.not_mem_nil, or_false] at hr
  rcases hr with h | h
  · subst h
    exact ⟨_, rfl, rfl⟩
  · subst h
    exact ⟨_, rfl, rfl⟩

/-! ### C2: waiver serialization round trip -/

/-- C2 counterexample: a reason holding a newline satisfies the creation
constraints (nonempty and trimmed, at most 500 characters), but the
round trip truncates it at the newline: the parsed reason is `"a"`, not
`"a\nb"`. -/
theorem waiver_round_trip_counterexample :
    pyStripS "a\nb" = "a\nb" ∧ "a\nb".length ≤ 500 ∧
    parse_waivers_file (some (append_to_waivers_file none
        (mkWaiver "W-001" "a\nb" "T1" none none))) =
      [mkWaiver "W-001" "a" "T1" none none] ∧
    mkWaiver "W-001" "a" "T1" none none ≠ mkWaiver "W-001" "a\nb" "T1" none none := by
  exact ⟨by decide, by decide, by decide, by decide⟩

/-! ### C2 toolkit: occurrence reasoning for the waiver scanners -/

theorem prefix_split {m s t : Str} (h : m <+: s ++ t) :
    m <+: s ∨ (s <+: m ∧ m.drop s.length <+: t) := by
  by_cases hl : m.length ≤ s.length
  · left
    have he := List.prefix_iff_eq_take.mp h
    rw [List.take_append_of_le_length hl] at he
    rw [he]
    exact List.take_prefix _ _
  · right
    have he := List.prefix_iff_eq_take.mp h
    have hml : m.length = s.length + (m.length - s.length) := by omega
    rw [hml, List.take_append] at he
    refine ⟨⟨_, he.symm⟩, ?_⟩
    rw [he, List.drop_left]
    exact List.take_prefix _ _

/-- No occurrence of `pat` (nonempty) anywhere in `s`, bounded form so
that it is decidable on concrete strings. -/
def noOccur (pat s : Str) : Prop :=
  ∀ i, i ≤ s.length → pat.isPrefixOf (s.drop i) = false

instance noOccurDecidable (pat s : Str) : Decidable (noOccur pat s) :=
  Nat.decidableBallLE s.length _

theorem noOccur_all {pat s : Str} (h : noOccur pat s) :
    ∀ i, pat.isPrefixOf (s.drop i) = false := by
  intro i
  by_cases hi : i ≤ s.length
  · exact h i hi
  · have hnil : s.drop i = [] := List.drop_eq_nil_of_le (by omega)
    have h0 := h s.length (le_refl _)
    rw [List.drop_length] at h0
    rw [hnil]
    exact h0

theorem isPrefixOf_false_of_head_ne {a c : Char} (as cs : Str) (h : ¬ a = c) :
    (a :: as).isPrefixOf (c :: cs) = false := by
  rw [List.isPrefixOf_cons₂]
  simp [h]

theorem takeWhile_stop (p : Char → Bool) (xs : Str) (y : Char) (ys : Str)
    (hall : ∀ x ∈ xs, p x = true) (hy : p y = false) :
    (xs ++ y :: ys).takeWhile p = xs := by
  induction xs with
  | nil => simp [List.takeWhile_cons, hy]
  | cons a t ih =>
    simp [List.takeWhile_cons, hall a (by simp),
      ih (fun x hx => hall x (by simp [hx]))]

theorem takeToBracket_found (x y : Str) (hx1 : ']' ∉ x) (hx2 : '\n' ∉ x) :
    takeToBracket (x ++ ']' :: y) = some x := by
  induction x with
  | nil => rfl
  | cons a t ih =>
    have ha1 : ¬ a = ']' := fun h => hx1 (by simp [h])
    have ha2 : ¬ a = '\n' := fun h => hx2 (by simp [h])
    rw [List.cons_append, takeToBracket, if_neg ha1, if_neg ha2,
      ih (fun h => hx1 (by simp [h])) (fun h => hx2 (by simp [h]))]
    rfl

/-- Occurrence exclusion for one serialized line `mark ++ field ++ "\n"`
followed by anything: the search marker `m` (nonempty, newline-free)
starts nowhere inside it, provided it starts nowhere inside the
concrete line marker (`hcheck`, decidable) nor inside the field. -/
theorem line_no_marker (m mark field cs : Str)
    (hm_ne : m ≠ []) (hmnl : '\n' ∉ m)
    (hcheck : ∀ i, i < mark.length →
      m.isPrefixOf (mark.drop i) = false ∧ (mark.drop i).isPrefixOf m = false)
    (hf : noOccur m field) (hfnl : '\n' ∉ field) :
    ∀ i, i < (mark ++ (field ++ ['\n'])).length →
      ¬ (m.isPrefixOf ((mark ++ (field ++ ['\n'])).drop i ++ cs) = true) := by
  intro i hi hcontr
  have hpre := List.isPrefixOf_iff_prefix.mp hcontr
  by_cases hz1 : i < mark.length
  · rw [List.drop_append_of_le_length (by omega), List.append_assoc] at hpre
    rcases prefix_split hpre with hc | ⟨hc, _⟩
    · rw [← List.isPrefixOf_iff_prefix] at hc
      rw [(hcheck i hz1).1] at hc
      simp at hc
    · rw [← List.isPrefixOf_iff_prefix] at hc
      rw [(hcheck i hz1).2] at hc
      simp at hc
  · have hi2 : mark.length ≤ i := by omega
    have hidrop : (mark ++ (field ++ ['\n'])).drop i =
        (field ++ ['\n']).drop (i - mark.length) := by
      have hieq : i = mark.length + (i - mark.length) := by omega
      rw [hieq, List.drop_append]
      congr 1
      omega
    rw [hidrop] at hpre
    have hilen : i < mark.length + (field.length + 1) := by
      simpa [List.length_append] using hi
    by_cases hz2 : i - mark.length < field.length
    · have hjdrop : (field ++ ['\n']).drop (i - mark.length) =
          field.drop (i - mark.length) ++ ['\n'] :=
        List.drop_append_of_le_length (by omega)
      rw [hjdrop, List.append_assoc, List.singleton_append] at hpre
      rcases prefix_split hpre with hc | ⟨hc, hc2⟩
      · rw [← List.isPrefixOf_iff_prefix] at hc
        rw [noOccur_all hf (i - mark.length)] at hc
        simp at hc
      · by_cases hlen : (field.drop (i - mark.length)).length < m.length
        · have hne : m.drop (field.drop (i - mark.length)).length ≠ [] := by
            intro he
            have hlen2 := congrArg List.length he
            simp only [List.length_drop, List.length_nil] at hlen2
            simp only [List.length_drop] at hlen
            omega
          obtain ⟨u, hu⟩ := hc2
          cases hms : m.drop (field.drop (i - mark.length)).length with
          | nil => exact hne hms
          | cons a as =>
            rw [hms] at hu
            have ha : a = '\n' := by
              have hh := congrArg List.head? hu
              simp at hh
              first
              | exact hh
              | exact hh.symm
            have hmem : a ∈ m := List.drop_subset _ _ (by rw [hms]; simp)
            rw [ha] at hmem
            exact hmnl hmem
        · have heq : field.drop (i - mark.length) = m :=
            List.IsPrefix.eq_of_length_le hc (by omega)
          have hno := noOccur_all hf (i - mark.length)
          rw [heq] at hno
          have hself : m.isPrefixOf m = true :=
            List.isPrefixOf_iff_prefix.mpr (List.prefix_refl m)
          rw [hno] at hself
          simp at hself
    · have hjeq : i - mark.length = field.length := by omega
      have hjdrop : (field ++ ['\n']).drop (i - mark.length) = ['\n'] := by
        rw [hjeq, List.drop_left]
      rw [hjdrop, List.singleton_append] at hpre
      cases m with
      | nil => exact hm_ne rfl
      | cons a as =>
        obtain ⟨u, hu⟩ := hpre
        have ha : a = '\n' := by
          have hh := congrArg List.head? hu
          simp at hh
          first
          | exact hh
          | exact hh.symm
        exact hmnl (by rw [← ha]; simp)

theorem searchField_skip (m p cs : Str)
    (h : ∀ i, i < p.length → ¬ (m.isPrefixOf (p.drop i ++ cs) = true)) :
    searchField m (p ++ cs) = searchField m cs := by
  induction p with
  | nil => simp
  | cons c t ih =>
    have h0 : ¬ (m.isPrefixOf (c :: (t ++ cs)) = true) := by
      have := h 0 (by simp)
      simpa using this
    rw [List.cons_append, searchField, if_neg h0]
    exact ih (fun i hi => by
      have := h (i + 1) (by simp only [List.length_cons]; omega)
      simpa using this)

theorem searchField_found (m field rest : Str) (hm : m ≠ [])
    (hne : field ≠ []) (hnl : '\n' ∉ field) :
    searchField m (m ++ (field ++ '\n' :: rest)) = some field := by
  cases hm2 : m with
  | nil => exact absurd hm2 hm
  | cons a as =>
    rw [List.cons_append, searchField]
    have hpre : (a :: as).isPrefixOf (a :: (as ++ (field ++ '\n' :: rest))) = true := by
      rw [List.isPrefixOf_iff_prefix, ← List.cons_append]
      exact List.prefix_append _ _
    rw [if_pos hpre]
    have hdrop : (a :: (as ++ (field ++ '\n' :: rest))).drop (a :: as).length =
        field ++ '\n' :: rest := by
      rw [← List.cons_append]
      exact List.drop_left _ _
    have hv : ((a :: (as ++ (field ++ '\n' :: rest))).drop (a :: as).length).takeWhile
        (fun x => x ≠ '\n') = field := by
      rw [hdrop]
      refine takeWhile_stop _ field '\n' rest (fun x hx => ?_) (by simp)
      simp only [ne_eq, decide_not, Bool.not_eq_true', decide_eq_false_iff_not,
        Decidable.not_not, decide_eq_true_eq]
      intro he
      exact hnl (he ▸ hx)
    simp only [hv]
    rw [if_neg (by simpa using hne)]

theorem searchField_nil (m : Str) : searchField m [] = none := rfl

theorem searchRules_skip (p cs : Str)
    (h : ∀ i, i < p.length → ¬ (rulesMarker.isPrefixOf (p.drop i ++ cs) = true)) :
    searchRules (p ++ cs) = searchRules cs := by
  induction p with
  | nil => simp
  | cons c t ih =>
    have h0 : ¬ (rulesMarker.isPrefixOf (c :: (t ++ cs)) = true) := by
      have := h 0 (by simp)
      simpa using this
    rw [List.cons_append, searchRules, if_neg h0]
    exact ih (fun i hi => by
      have := h (i + 1) (by simp only [List.length_cons]; omega)
      simpa using this)

theorem searchRules_found_aux (a : Char) (as joined rest : Str)
    (hmark : rulesMarker = a :: as)
    (hne : joined ≠ []) (hnl : '\n' ∉ joined) (hbr : ']' ∉ joined) :
    searchRules ((a :: as) ++ (joined ++ ']' :: rest)) = some joined := by
  rw [List.cons_append, searchRules]
  have hpre : rulesMarker.isPrefixOf (a :: (as ++ (joined ++ ']' :: rest))) = true := by
    rw [List.isPrefixOf_iff_prefix, hmark, ← List.cons_append]
    exact List.prefix_append _ _
  rw [if_pos hpre]
  have hdrop : (a :: (as ++ (joined ++ ']' :: rest))).drop rulesMarker.length =
      joined ++ ']' :: rest := by
    rw [hmark, ← List.cons_append]
    exact List.drop_left _ _
  rw [hdrop]
  cases joined with
  | nil => exact absurd rfl hne
  | cons j0 jt =>
    rw [List.cons_append]
    simp only []
    have hj0 : ¬ j0 = '\n' := fun he => hnl (by simp [he])
    rw [if_neg hj0]
    rw [takeToBracket_found jt rest (fun hx => hbr (by simp [hx]))
      (fun hx => hnl (by simp [hx]))]

theorem searchRules_found (joined rest : Str) (hne : joined ≠ [])
    (hnl : '\n' ∉ joined) (hbr : ']' ∉ joined) :
    searchRules (rulesMarker ++ (joined ++ ']' :: rest)) = some joined := by
  have hmark : rulesMarker = '-' :: rulesMarker.tail := by decide
  rw [hmark]
  exact searchRules_found_aux '-' rulesMarker.tail joined rest hmark hne hnl hbr

theorem searchRules_nil : searchRules [] = none := rfl

theorem takeBodyLine_consume (l rest : Str) (hnl : '\n' ∉ l) :
    takeBodyLine (l ++ '\n' :: rest) =
      (takeBody rest).map (fun p => (l ++ '\n' :: p.1, p.2)) := by
  induction l with
  | nil =>
    rw [List.nil_append, takeBodyLine, if_pos rfl]
    rfl
  | cons c t ih =>
    have hc : ¬ c = '\n' := fun he => hnl (by simp [he])
    rw [List.cons_append, takeBodyLine, if_neg hc, ih (fun hx => hnl (by simp [hx]))]
    rw [Option.map_map]
    rfl

theorem takeBody_lines (lines : List Str)
    (h : ∀ l ∈ lines, l ≠ [] ∧ '\n' ∉ l ∧ l.head? ≠ some '#') :
    takeBody ((lines.map (fun l => l ++ ['\n'])).flatten) =
      some ((lines.map (fun l => l ++ ['\n'])).flatten, []) := by
  induction lines with
  | nil => rfl
  | cons l t ih =>
    obtain ⟨h1, h2, h3⟩ := h l (by simp)
    cases hl : l with
    | nil => exact absurd hl h1
    | cons c l' =>
      subst hl
      simp only [List.map_cons, List.flatten_cons, List.append_assoc,
        List.singleton_append, List.cons_append, List.nil_append]
      rw [takeBody]
      have hlook : lookMarker.isPrefixOf
          (c :: (l' ++ '\n' :: (t.map (fun l => l ++ ['\n'])).flatten)) = false := by
        have hch : ¬ ('#' : Char) = c := by
          intro he
          apply h3
          simp [← he]
        exact isPrefixOf_false_of_head_ne _ _ hch
      rw [if_neg (by simp [hlook])]
      have hc : ¬ c = '\n' := fun he => h2 (by simp [he])
      have hcond : ¬ ((decide (c = '\n') &&
          (l' ++ '\n' :: (t.map (fun l => l ++ ['\n'])).flatten).isEmpty) = true) := by
        simp [hc]
      rw [if_neg hcond, if_neg hc]
      rw [takeBodyLine_consume l' _ (fun hx => h2 (by simp [hx]))]
      rw [ih (fun x hx => h x (by simp [hx]))]
      rfl

theorem findSections_skip (p cs : Str)
    (h : ∀ i, i < p.length → ¬ (headMarker.isPrefixOf (p.drop i ++ cs) = true)) :
    findSections (p ++ cs) = findSections cs := by
  induction p with
  | nil => simp
  | cons c t ih =>
    have h0 : ¬ (headMarker.isPrefixOf (c :: (t ++ cs)) = true) := by
      have := h 0 (by simp)
      simpa using this
    rw [List.cons_append, findSections_eq]
    have hth : tryHeader (c :: (t ++ cs)) = none := by
      rw [tryHeader, if_neg h0]
    simp only [hth]
    exact ih (fun i hi => by
      have := h (i + 1) (by simp only [List.length_cons]; omega)
      simpa using this)

theorem splitOnChar_no_sep (a : Str) (ha : ',' ∉ a) : splitOnChar ',' a = [a] := by
  induction a with
  | nil => rfl
  | cons c t ih =>
    have hc : ¬ c = ',' := fun he => ha (by simp [he])
    rw [splitOnChar, if_neg hc, ih (fun hx => ha (by simp [hx]))]

theorem splitOnChar_append_sep (a rest : Str) (ha : ',' ∉ a) :
    splitOnChar ',' (a ++ ',' :: rest) = a :: splitOnChar ',' rest := by
  induction a with
  | nil =>
    rw [List.nil_append, splitOnChar, if_pos rfl]
  | cons c t ih =>
    have hc : ¬ c = ',' := fun he => ha (by simp [he])
    rw [List.cons_append, splitOnChar, if_neg hc, ih (fun hx => ha (by simp [hx]))]

theorem pyStrip_ws_head (p : Str) : pyStrip (' ' :: p) = pyStrip p := by
  rw [pyStrip, pyStrip, List.dropWhile_cons, if_pos (by decide)]

theorem pyStrip_id (cs : Str) (hd : cs.dropWhile isPySpace = cs)
    (hr : cs.reverse.dropWhile isPySpace = cs.reverse) :
    pyStrip cs = cs := by
  rw [pyStrip, hd, hr, List.reverse_reverse]

theorem split_join (rr : List String) (hrr : rr ≠ [])
    (h : ∀ r ∈ rr, r.toList ≠ [] ∧ ',' ∉ r.toList ∧
      r.toList.dropWhile isPySpace = r.toList ∧
      r.toList.reverse.dropWhile isPySpace = r.toList.reverse) :
    (splitOnChar ',' (joinComma rr).toList).map
      (fun x => (pyStrip x).asString) = rr := by
  induction rr with
  | nil => exact absurd rfl hrr
  | cons a t ih =>
    cases t with
    | nil =>
      obtain ⟨h1, h2, h3, h4⟩ := h a (by simp)
      rw [show joinComma [a] = a from rfl]
      rw [splitOnChar_no_sep _ h2]
      rw [List.map_cons, List.map_nil, pyStrip_id _ h3 h4, String.asString_toList]
    | cons b t2 =>
      obtain ⟨h1, h2, h3, h4⟩ := h a (by simp)
      have hjoin : (joinComma (a :: b :: t2)).toList =
          a.toList ++ ',' :: ' ' :: (joinComma (b :: t2)).toList := by
        show (a ++ ", " ++ joinComma (b :: t2)).data = _
        simp only [String.data_append, List.append_assoc]
        rfl
      rw [hjoin, splitOnChar_append_sep _ _ h2]
      have hih := ih (by simp) (fun x hx => h x (by simp [hx]))
      cases hsp : splitOnChar ',' (joinComma (b :: t2)).toList with
      | nil => rw [hsp] at hih; simp at hih
      | cons p ps =>
        rw [hsp] at hih
        rw [splitOnChar, if_neg (by decide), hsp]
        simp only [List.map_cons] at hih ⊢
        rw [pyStrip_ws_head, pyStrip_id _ h3 h4, String.asString_toList, hih]

/-- For a concrete character list `p` (checked by `decide`), the search
marker `m` starts nowhere strictly inside `p ++ cs` within `p`'s range. -/
theorem concrete_no_marker (m p cs : Str)
    (ha : ∀ i, i < p.length → m.isPrefixOf (p.drop i) = false)
    (hb : ∀ i, i < p.length → (p.drop i).length < m.length →
      (p.drop i).isPrefixOf m = false) :
    ∀ i, i < p.length → ¬ (m.isPrefixOf (p.drop i ++ cs) = true) := by
  intro i hi hcontr
  have hpre := List.isPrefixOf_iff_prefix.mp hcontr
  rcases prefix_split hpre with hc | ⟨hc, _⟩
  · rw [← List.isPrefixOf_iff_prefix] at hc
    rw [ha i hi] at hc
    simp at hc
  · by_cases hlen : (p.drop i).length < m.length
    · rw [← List.isPrefixOf_iff_prefix] at hc
      rw [hb i hi hlen] at hc
      simp at hc
    · have heq : p.drop i = m := hc.eq_of_length_le (by omega)
      have hself := ha i hi
      rw [heq] at hself
      rw [List.isPrefixOf_iff_prefix.mpr (List.prefix_refl m)] at hself
      simp at hself

theorem findSections_header (cs : Str) (wid : String) (body rest : Str)
    (h : tryHeader cs = some (wid, body, rest)) :
    findSections cs = (wid, body) :: findSections rest := by
  rw [findSections_eq]
  cases cs with
  | nil =>
    rw [tryHeader] at h
    rw [if_neg (by decide)] at h
    simp at h
  | cons c t => simp only [h]

theorem tryHeader_entry (ds : Str) (body : Str)
    (hds1 : ds ≠ []) (hds2 : ∀ c ∈ ds, isAsciiDigit c = true)
    (hbody : takeBody body = some (body, [])) :
    tryHeader (headMarker ++ ('W' :: '-' :: (ds ++ '\n' :: body))) =
      some ("W-" ++ ds.asString, body, []) := by
  rw [tryHeader]
  have hpre : headMarker.isPrefixOf
      (headMarker ++ ('W' :: '-' :: (ds ++ '\n' :: body))) = true :=
    List.isPrefixOf_iff_prefix.mpr (List.prefix_append _ _)
  rw [if_pos hpre]
  simp only [List.drop_left]
  have hw : List.isPrefixOf ['W', '-'] ('W' :: '-' :: (ds ++ '\n' :: body)) = true := by
    rw [List.isPrefixOf_iff_prefix]
    exact ⟨ds ++ '\n' :: body, rfl⟩
  rw [if_pos hw]
  have hdrop2 : ('W' :: '-' :: (ds ++ '\n' :: body)).drop 2 = ds ++ '\n' :: body := rfl
  rw [hdrop2]
  have htw : (ds ++ '\n' :: body).takeWhile isAsciiDigit = ds :=
    takeWhile_stop _ ds '\n' body hds2 (by decide)
  rw [htw]
  rw [if_neg (by simpa [List.isEmpty_iff] using hds1)]
  have hdrop3 : (ds ++ '\n' :: body).drop ds.length = '\n' :: body := List.drop_left _ _
  rw [hdrop3]
  rw [if_pos (by rw [List.isPrefixOf_iff_prefix]; exact ⟨body, rfl⟩)]
  have hdrop4 : ('\n' :: body).drop 1 = body := rfl
  rw [hdrop4, hbody]

theorem joinComma_props (rr : List String)
    (hrrf : ∀ r ∈ rr, r.toList ≠ [] ∧ '\n' ∉ r.toList ∧ ',' ∉ r.toList ∧
      ']' ∉ r.toList)
    (hne : rr ≠ []) :
    (joinComma rr).toList ≠ [] ∧ '\n' ∉ (joinComma rr).toList ∧
      ']' ∉ (joinComma rr).toList := by
  induction rr with
  | nil => exact absurd rfl hne
  | cons a t ih =>
    obtain ⟨p1, p2, p3, p4⟩ := hrrf a (by simp)
    cases t with
    | nil =>
      rw [show joinComma [a] = a from rfl]
      exact ⟨p1, p2, p4⟩
    | cons b t2 =>
      have hih := ih (fun x hx => hrrf x (by simp [hx])) (by simp)
      have hjoin2 : (joinComma (a :: b :: t2)).toList =
          a.toList ++ ',' :: ' ' :: (joinComma (b :: t2)).toList := by
        show (a ++ ", " ++ joinComma (b :: t2)).data = _
        simp only [String.data_append, List.append_assoc]
        rfl
      rw [hjoin2]
      refine ⟨by simp [p1], ?_, ?_⟩
      · simp only [List.mem_append, List.mem_cons]
        rintro (h | h | h | h)
        · exact p2 h
        · simp at h
        · simp at h
        · exact hih.2.1 h
      · simp only [List.mem_append, List.mem_cons]
        rintro (h | h | h | h)
        · exact p4 h
        · simp at h
        · simp at h
        · exact hih.2.2 h

theorem line_assoc (mark fld X : Str) :
    (mark ++ (fld ++ ['\n'])) ++ X = mark ++ (fld ++ '\n' :: X) := by
  simp [List.append_assoc]

theorem searchField_skip_line (m mark fld cs : Str) (hm1 : m ≠ []) (hm2 : '\n' ∉ m)
    (hcheck : ∀ i, i < mark.length →
      m.isPrefixOf (mark.drop i) = false ∧ (mark.drop i).isPrefixOf m = false)
    (hf : noOccur m fld) (hfnl : '\n' ∉ fld) :
    searchField m ((mark ++ (fld ++ ['\n'])) ++ cs) = searchField m cs :=
  searchField_skip m _ cs (line_no_marker m mark fld cs hm1 hm2 hcheck hf hfnl)

theorem searchRules_skip_line (mark fld cs : Str)
    (hcheck : ∀ i, i < mark.length →
      rulesMarker.isPrefixOf (mark.drop i) = false ∧
      (mark.drop i).isPrefixOf rulesMarker = false)
    (hf : noOccur rulesMarker fld) (hfnl : '\n' ∉ fld) :
    searchRules ((mark ++ (fld ++ ['\n'])) ++ cs) = searchRules cs :=
  searchRules_skip _ cs
    (line_no_marker rulesMarker mark fld cs (by decide) (by decide) hcheck hf hfnl)

theorem searchField_skip_last (m mark fld : Str) (hm1 : m ≠ []) (hm2 : '\n' ∉ m)
    (hcheck : ∀ i, i < mark.length →
      m.isPrefixOf (mark.drop i) = false ∧ (mark.drop i).isPrefixOf m = false)
    (hf : noOccur m fld) (hfnl : '\n' ∉ fld) :
    searchField m (mark ++ (fld ++ ['\n'])) = none := by
  rw [← List.append_nil (mark ++ (fld ++ ['\n']))]
  rw [searchField_skip_line m mark fld [] hm1 hm2 hcheck hf hfnl]
  rfl

theorem searchRules_skip_last (mark fld : Str)
    (hcheck : ∀ i, i < mark.length →
      rulesMarker.isPrefixOf (mark.drop i) = false ∧
      (mark.drop i).isPrefixOf rulesMarker = false)
    (hf : noOccur rulesMarker fld) (hfnl : '\n' ∉ fld) :
    searchRules (mark ++ (fld ++ ['\n'])) = none := by
  rw [← List.append_nil (mark ++ (fld ++ ['\n']))]
  rw [searchRules_skip_line mark fld [] hcheck hf hfnl]
  rfl

theorem marker_line_facts (mark fld : Str) (a : Char) (as : Str)
    (hmark : mark = a :: as) (ha : a ≠ '#') (hnlm : '\n' ∉ mark) (hnlf : '\n' ∉ fld) :
    mark ++ fld ≠ [] ∧ '\n' ∉ mark ++ fld ∧ (mark ++ fld).head? ≠ some '#' := by
  subst hmark
  refine ⟨by simp, ?_, ?_⟩
  · intro hmem
    rcases List.mem_append.mp hmem with h | h
    · exact hnlm h
    · exact hnlf h
  · rw [List.cons_append]
    simp only [List.head?_cons, ne_eq, Option.some.injEq]
    exact ha

theorem tl_append (a b : String) : (a ++ b).toList = a.toList ++ b.toList :=
  String.data_append a b

theorem tl_asString (l : Str) : (List.asString l).toList = l := rfl

theorem dataHead : ("\n## Waiver: " : String).toList = '\n' :: headMarker := rfl

theorem dataNl : ("\n" : String).toList = ['\n'] := rfl

theorem dataWDash : ("W-" : String).toList = ['W', '-'] := rfl

theorem dataReason : ("- **Reason**: " : String).toList = reasonMarker := rfl

theorem dataTs : ("- **Timestamp**: " : String).toList = tsMarker := rfl

theorem dataCb : ("- **Created By**: " : String).toList = cbMarker := rfl

theorem dataRules : ("- **Related Rules**: [" : String).toList = rulesMarker := rfl

theorem dataBrNl : ("]\n" : String).toList = [']', '\n'] := rfl

theorem dataEmpty : ("" : String).toList = [] := rfl

theorem format_waiver_entry_eq (wid reason ts : String) (rr : List String)
    (cb : Option String) :
    format_waiver_entry wid reason ts rr cb =
      "\n## Waiver: " ++ wid ++ "\n" ++ "- **Reason**: " ++ reason ++ "\n" ++
      "- **Timestamp**: " ++ ts ++ "\n" ++
      (match cb with
       | some s => if s = "" then "" else "- **Created By**: " ++ s ++ "\n"
       | none => "") ++
      (if rr.isEmpty then "" else "- **Related Rules**: [" ++ joinComma rr ++ "]\n") :=
  rfl

/-- C2 (amended): appending a waiver to a fresh log and re-parsing
reproduces its id, reason, timestamp, related rules and author,
provided the id is `W-` followed by digits (as `generate_waiver_id`
produces), every field value is a nonempty single line that does not
contain the serialized field-marker strings of the other fields, the
author (when present) is nonempty, and every related rule id is
nonempty, comma- and bracket-free, and carries no surrounding
whitespace.  (The unamended claim fails for a reason containing a
newline, see the counterexample.) -/
theorem waiver_round_trip (ds : Str) (reason ts : String)
    (rr : List String) (cb : Option String)
    (hds1 : ds ≠ []) (hds2 : ∀ c ∈ ds, isAsciiDigit c = true)
    (hr1 : reason.toList ≠ []) (hr2 : '\n' ∉ reason.toList)
    (hr3 : noOccur tsMarker reason.toList)
    (hr4 : noOccur cbMarker reason.toList)
    (hr5 : noOccur rulesMarker reason.toList)
    (ht1 : ts.toList ≠ []) (ht2 : '\n' ∉ ts.toList)
    (ht3 : noOccur cbMarker ts.toList)
    (ht4 : noOccur rulesMarker ts.toList)
    (hcb : ∀ c, cb = some c → c.toList ≠ [] ∧ '\n' ∉ c.toList ∧
      noOccur rulesMarker c.toList)
    (hrrf : ∀ r ∈ rr, r.toList ≠ [] ∧ '\n' ∉ r.toList ∧ ',' ∉ r.toList ∧
      ']' ∉ r.toList ∧ r.toList.dropWhile isPySpace = r.toList ∧
      r.toList.reverse.dropWhile isPySpace = r.toList.reverse)
    (hjcb : noOccur cbMarker ((joinComma rr).toList ++ [']'])) :
    parse_waivers_file (some (append_to_waivers_file none
      { waiver_id := "W-" ++ ds.asString, reason := reason, timestamp := ts,
        related_rules := rr, created_by := cb })) =
      [{ waiver_id := "W-" ++ ds.asString, reason := reason, timestamp := ts,
         related_rules := rr, created_by := cb }] := by
  cases cb with
  | none =>
    cases rr with
    | nil =>
        have htB : takeBody ((reasonMarker ++ (reason.toList ++ ['\n'])) ++ ((tsMarker ++ (ts.toList ++ ['\n'])) ++ ([] : Str))) = some (((reasonMarker ++ (reason.toList ++ ['\n'])) ++ ((tsMarker ++ (ts.toList ++ ['\n'])) ++ ([] : Str))), []) := by
          have hBeq : ((reasonMarker ++ (reason.toList ++ ['\n'])) ++ ((tsMarker ++ (ts.toList ++ ['\n'])) ++ ([] : Str))) =
              (([reasonMarker ++ reason.toList, tsMarker ++ ts.toList]).map (fun l => l ++ ['\n'])).flatten := by
            simp [List.append_assoc]
          rw [hBeq]
          refine takeBody_lines [reasonMarker ++ reason.toList, tsMarker ++ ts.toList] ?_
          intro l hl
          simp only [List.mem_cons, List.not_mem_nil, or_false] at hl
          rcases hl with h | h
          · subst h
            exact marker_line_facts reasonMarker reason.toList '-' reasonMarker.tail
              (by decide) (by decide) (by decide) hr2
          · subst h
            exact marker_line_facts tsMarker ts.toList '-' tsMarker.tail
              (by decide) (by decide) (by decide) ht2
        have hsecs : findSections ((waiversHeader.toList ++ ['\n']) ++ (headMarker ++ ('W' :: '-' :: (ds ++ '\n' :: ((reasonMarker ++ (reason.toList ++ ['\n'])) ++ ((tsMarker ++ (ts.toList ++ ['\n'])) ++ ([] : Str))))))) =
            [("W-" ++ ds.asString, ((reasonMarker ++ (reason.toList ++ ['\n'])) ++ ((tsMarker ++ (ts.toList ++ ['\n'])) ++ ([] : Str))))] := by
          rw [findSections_skip _ _ (concrete_no_marker headMarker
            (waiversHeader.toList ++ ['\n']) (headMarker ++ ('W' :: '-' :: (ds ++ '\n' :: ((reasonMarker ++ (reason.toList ++ ['\n'])) ++ ((tsMarker ++ (ts.toList ++ ['\n'])) ++ ([] : Str)))))) (by decide) (by decide))]
          rw [findSections_header _ ("W-" ++ ds.asString) ((reasonMarker ++ (reason.toList ++ ['\n'])) ++ ((tsMarker ++ (ts.toList ++ ['\n'])) ++ ([] : Str))) []
            (tryHeader_entry ds ((reasonMarker ++ (reason.toList ++ ['\n'])) ++ ((tsMarker ++ (ts.toList ++ ['\n'])) ++ ([] : Str))) hds1 hds2 htB)]
          rw [show findSections ([] : Str) = [] from rfl]
        have hsfr : searchField reasonMarker ((reasonMarker ++ (reason.toList ++ ['\n'])) ++ ((tsMarker ++ (ts.toList ++ ['\n'])) ++ ([] : Str))) = some reason.toList := by
          rw [line_assoc reasonMarker reason.toList]
          exact searchField_found reasonMarker reason.toList _ (by decide) hr1 hr2
        have hsft : searchField tsMarker ((reasonMarker ++ (reason.toList ++ ['\n'])) ++ ((tsMarker ++ (ts.toList ++ ['\n'])) ++ ([] : Str))) = some ts.toList := by
          rw [searchField_skip_line tsMarker reasonMarker reason.toList _
            (by decide) (by decide) (by decide) hr3 hr2]
          rw [line_assoc tsMarker ts.toList]
          exact searchField_found tsMarker ts.toList _ (by decide) ht1 ht2
        have hscb : searchField cbMarker ((reasonMarker ++ (reason.toList ++ ['\n'])) ++ ((tsMarker ++ (ts.toList ++ ['\n'])) ++ ([] : Str))) = none := by
          rw [searchField_skip_line cbMarker reasonMarker reason.toList _
            (by decide) (by decide) (by decide) hr4 hr2]
          rw [searchField_skip_line cbMarker tsMarker ts.toList _
            (by decide) (by decide) (by decide) ht3 ht2]
          rfl
        have hsr : searchRules ((reasonMarker ++ (reason.toList ++ ['\n'])) ++ ((tsMarker ++ (ts.toList ++ ['\n'])) ++ ([] : Str))) = none := by
          rw [searchRules_skip_line reasonMarker reason.toList _ (by decide) hr5 hr2]
          rw [searchRules_skip_line tsMarker ts.toList _ (by decide) ht4 ht2]
          rfl
        have hps : parseSection ("W-" ++ ds.asString) ((reasonMarker ++ (reason.toList ++ ['\n'])) ++ ((tsMarker ++ (ts.toList ++ ['\n'])) ++ ([] : Str))) =
            some { waiver_id := "W-" ++ ds.asString, reason := reason, timestamp := ts, related_rules := ([] : List String), created_by := (none : Option String) } := by
          simp only [parseSection, hsfr, hsft, hsr, hscb, Option.map_none', mkWaiver, String.asString_toList, Option.getD_none]
        have hfmt2 : (format_waiver_entry ("W-" ++ ds.asString) reason ts ([] : List String) (none : Option String)).toList =
            '\n' :: (headMarker ++ ('W' :: '-' :: (ds ++ '\n' :: ((reasonMarker ++ (reason.toList ++ ['\n'])) ++ ((tsMarker ++ (ts.toList ++ ['\n'])) ++ ([] : Str)))))) := by
          rw [format_waiver_entry_eq]
          show ("\n## Waiver: " ++ ("W-" ++ ds.asString) ++ "\n" ++ "- **Reason**: " ++
            reason ++ "\n" ++ "- **Timestamp**: " ++ ts ++ "\n" ++ "" ++
            "").toList = _
          simp only [tl_append, dataHead, dataNl, dataWDash, dataReason, dataTs,
            dataCb, dataRules, dataBrNl, dataEmpty, tl_asString]
          simp [List.append_assoc]
        have hcontent : (append_to_waivers_file none { waiver_id := "W-" ++ ds.asString, reason := reason, timestamp := ts, related_rules := ([] : List String), created_by := (none : Option String) }).toList =
            (waiversHeader.toList ++ ['\n']) ++ (headMarker ++ ('W' :: '-' :: (ds ++ '\n' :: ((reasonMarker ++ (reason.toList ++ ['\n'])) ++ ((tsMarker ++ (ts.toList ++ ['\n'])) ++ ([] : Str)))))) := by
          show (waiversHeader ++ format_waiver_entry ("W-" ++ ds.asString) reason ts ([] : List String) (none : Option String)).toList = _
          rw [tl_append, hfmt2]
          simp [List.append_assoc]
        simp only [parse_waivers_file]
        rw [hcontent]
        simp only [parseWaiversContent]
        rw [hsecs]
        simp only [List.filterMap_cons, List.filterMap_nil, hps]
    | cons r0 rs =>
        have hjp := joinComma_props (r0 :: rs)
          (fun r hr => ⟨(hrrf r hr).1, (hrrf r hr).2.1, (hrrf r hr).2.2.1,
            (hrrf r hr).2.2.2.1⟩) (by simp)
        have hjnl : '\n' ∉ (joinComma (r0 :: rs)).toList ++ [']'] := by
          intro hmem
          rcases List.mem_append.mp hmem with h | h
          · exact hjp.2.1 h
          · exact absurd h (by decide)
        have htB : takeBody ((reasonMarker ++ (reason.toList ++ ['\n'])) ++ ((tsMarker ++ (ts.toList ++ ['\n'])) ++ (rulesMarker ++ (((joinComma (r0 :: rs)).toList ++ [']']) ++ ['\n'])))) = some (((reasonMarker ++ (reason.toList ++ ['\n'])) ++ ((tsMarker ++ (ts.toList ++ ['\n'])) ++ (rulesMarker ++ (((joinComma (r0 :: rs)).toList ++ [']']) ++ ['\n'])))), []) := by
          have hBeq : ((reasonMarker ++ (reason.toList ++ ['\n'])) ++ ((tsMarker ++ (ts.toList ++ ['\n'])) ++ (rulesMarker ++ (((joinComma (r0 :: rs)).toList ++ [']']) ++ ['\n'])))) =
              (([reasonMarker ++ reason.toList, tsMarker ++ ts.toList, rulesMarker ++ ((joinComma (r0 :: rs)).toList ++ [']'])]).map (fun l => l ++ ['\n'])).flatten := by
            simp [List.append_assoc]
          rw [hBeq]
          refine takeBody_lines [reasonMarker ++ reason.toList, tsMarker ++ ts.toList, rulesMarker ++ ((joinComma (r0 :: rs)).toList ++ [']'])] ?_
          intro l hl
          simp only [List.mem_cons, List.not_mem_nil, or_false] at hl
          rcases hl with h | h | h
          · subst h
            exact marker_line_facts reasonMarker reason.toList '-' reasonMarker.tail
              (by decide) (by decide) (by decide) hr2
          · subst h
            exact marker_line_facts tsMarker ts.toList '-' tsMarker.tail
              (by decide) (by decide) (by decide) ht2
          · subst h
            exact marker_line_facts rulesMarker ((joinComma (r0 :: rs)).toList ++ [']']) '-' rulesMarker.tail
              (by decide) (by decide) (by decide) hjnl
        have hsecs : findSections ((waiversHeader.toList ++ ['\n']) ++ (headMarker ++ ('W' :: '-' :: (ds ++ '\n' :: ((reasonMarker ++ (reason.toList ++ ['\n'])) ++ ((tsMarker ++ (ts.toList ++ ['\n'])) ++ (rulesMarker ++ (((joinComma (r0 :: rs)).toList ++ [']']) ++ ['\n'])))))))) =
            [("W-" ++ ds.asString, ((reasonMarker ++ (reason.toList ++ ['\n'])) ++ ((tsMarker ++ (ts.toList ++ ['\n'])) ++ (rulesMarker ++ (((joinComma (r0 :: rs)).toList ++ [']']) ++ ['\n'])))))] := by
          rw [findSections_skip _ _ (concrete_no_marker headMarker
            (waiversHeader.toList ++ ['\n']) (headMarker ++ ('W' :: '-' :: (ds ++ '\n' :: ((reasonMarker ++ (reason.toList ++ ['\n'])) ++ ((tsMarker ++ (ts.toList ++ ['\n'])) ++ (rulesMarker ++ (((joinComma (r0 :: rs)).toList ++ [']']) ++ ['\n']))))))) (by decide) (by decide))]
          rw [findSections_header _ ("W-" ++ ds.asString) ((reasonMarker ++ (reason.toList ++ ['\n'])) ++ ((tsMarker ++ (ts.toList ++ ['\n'])) ++ (rulesMarker ++ (((joinComma (r0 :: rs)).toList ++ [']']) ++ ['\n'])))) []
            (tryHeader_entry ds ((reasonMarker ++ (reason.toList ++ ['\n'])) ++ ((tsMarker ++ (ts.toList ++ ['\n'])) ++ (rulesMarker ++ (((joinComma (r0 :: rs)).toList ++ [']']) ++ ['\n'])))) hds1 hds2 htB)]
          rw [show findSections ([] : Str) = [] from rfl]
        have hsfr : searchField reasonMarker ((reasonMarker ++ (reason.toList ++ ['\n'])) ++ ((tsMarker ++ (ts.toList ++ ['\n'])) ++ (rulesMarker ++ (((joinComma (r0 :: rs)).toList ++ [']']) ++ ['\n'])))) = some reason.toList := by
          rw [line_assoc reasonMarker reason.toList]
          exact searchField_found reasonMarker reason.toList _ (by decide) hr1 hr2
        have hsft : searchField tsMarker ((reasonMarker ++ (reason.toList ++ ['\n'])) ++ ((tsMarker ++ (ts.toList ++ ['\n'])) ++ (rulesMarker ++ (((joinComma (r0 :: rs)).toList ++ [']']) ++ ['\n'])))) = some ts.toList := by
          rw [searchField_skip_line tsMarker reasonMarker reason.toList _
            (by decide) (by decide) (by decide) hr3 hr2]
          rw [line_assoc tsMarker ts.toList]
          exact searchField_found tsMarker ts.toList _ (by decide) ht1 ht2
        have hscb : searchField cbMarker ((reasonMarker ++ (reason.toList ++ ['\n'])) ++ ((tsMarker ++ (ts.toList ++ ['\n'])) ++ (rulesMarker ++ (((joinComma (r0 :: rs)).toList ++ [']']) ++ ['\n'])))) = none := by
          rw [searchField_skip_line cbMarker reasonMarker reason.toList _
            (by decide) (by decide) (by decide) hr4 hr2]
          rw [searchField_skip_line cbMarker tsMarker ts.toList _
            (by decide) (by decide) (by decide) ht3 ht2]
          exact searchField_skip_last cbMarker rulesMarker ((joinComma (r0 :: rs)).toList ++ [']'])
            (by decide) (by decide) (by decide) hjcb hjnl
        have hsr : searchRules ((reasonMarker ++ (reason.toList ++ ['\n'])) ++ ((tsMarker ++ (ts.toList ++ ['\n'])) ++ (rulesMarker ++ (((joinComma (r0 :: rs)).toList ++ [']']) ++ ['\n'])))) = some ((joinComma (r0 :: rs)).toList) := by
          rw [searchRules_skip_line reasonMarker reason.toList _ (by decide) hr5 hr2]
          rw [searchRules_skip_line tsMarker ts.toList _ (by decide) ht4 ht2]
          rw [show (((joinComma (r0 :: rs)).toList ++ [']']) ++ ['\n'] : Str) =
            (joinComma (r0 :: rs)).toList ++ ']' :: ['\n'] from by simp]
          exact searchRules_found ((joinComma (r0 :: rs)).toList) ['\n'] hjp.1 hjp.2.1 hjp.2.2
        have hps : parseSection ("W-" ++ ds.asString) ((reasonMarker ++ (reason.toList ++ ['\n'])) ++ ((tsMarker ++ (ts.toList ++ ['\n'])) ++ (rulesMarker ++ (((joinComma (r0 :: rs)).toList ++ [']']) ++ ['\n'])))) =
            some { waiver_id := "W-" ++ ds.asString, reason := reason, timestamp := ts, related_rules := (r0 :: rs), created_by := (none : Option String) } := by
          simp only [parseSection, hsfr, hsft, hsr, hscb, Option.map_some', Option.map_none', mkWaiver, String.asString_toList, Option.getD_some]
          rw [split_join (r0 :: rs) (by simp)
            (fun r hr => ⟨(hrrf r hr).1, (hrrf r hr).2.2.1,
              (hrrf r hr).2.2.2.2.1, (hrrf r hr).2.2.2.2.2⟩)]
        have hfmt2 : (format_waiver_entry ("W-" ++ ds.asString) reason ts (r0 :: rs) (none : Option String)).toList =
            '\n' :: (headMarker ++ ('W' :: '-' :: (ds ++ '\n' :: ((reasonMarker ++ (reason.toList ++ ['\n'])) ++ ((tsMarker ++ (ts.toList ++ ['\n'])) ++ (rulesMarker ++ (((joinComma (r0 :: rs)).toList ++ [']']) ++ ['\n']))))))) := by
          rw [format_waiver_entry_eq]
          show ("\n## Waiver: " ++ ("W-" ++ ds.asString) ++ "\n" ++ "- **Reason**: " ++
            reason ++ "\n" ++ "- **Timestamp**: " ++ ts ++ "\n" ++ "" ++
            ("- **Related Rules**: [" ++ joinComma (r0 :: rs) ++ "]\n")).toList = _
          simp only [tl_append, dataHead, dataNl, dataWDash, dataReason, dataTs,
            dataCb, dataRules, dataBrNl, dataEmpty, tl_asString]
          simp [List.append_assoc]
        have hcontent : (append_to_waivers_file none { waiver_id := "W-" ++ ds.asString, reason := reason, timestamp := ts, related_rules := (r0 :: rs), created_by := (none : Option String) }).toList =
            (waiversHeader.toList ++ ['\n']) ++ (headMarker ++ ('W' :: '-' :: (ds ++ '\n' :: ((reasonMarker ++ (reason.toList ++ ['\n'])) ++ ((tsMarker ++ (ts.toList ++ ['\n'])) ++ (rulesMarker ++ (((joinComma (r0 :: rs)).toList ++ [']']) ++ ['\n']))))))) := by
          show (waiversHeader ++ format_waiver_entry ("W-" ++ ds.asString) reason ts (r0 :: rs) (none : Option String)).toList = _
          rw [tl_append, hfmt2]
          simp [List.append_assoc]
        simp only [parse_waivers_file]
        rw [hcontent]
        simp only [parseWaiversContent]
        rw [hsecs]
        simp only [List.filterMap_cons, List.filterMap_nil, hps]
  | some c =>
    cases rr with
    | nil =>
        obtain ⟨hc1, hc2, hc3⟩ := hcb c rfl
        have hc0 : ¬ (c = "") := fun he => hc1 (by rw [he]; rfl)
        have htB : takeBody ((reasonMarker ++ (reason.toList ++ ['\n'])) ++ ((tsMarker ++ (ts.toList ++ ['\n'])) ++ (cbMarker ++ (c.toList ++ ['\n'])))) = some (((reasonMarker ++ (reason.toList ++ ['\n'])) ++ ((tsMarker ++ (ts.toList ++ ['\n'])) ++ (cbMarker ++ (c.toList ++ ['\n'])))), []) := by
          have hBeq : ((reasonMarker ++ (reason.toList ++ ['\n'])) ++ ((tsMarker ++ (ts.toList ++ ['\n'])) ++ (cbMarker ++ (c.toList ++ ['\n'])))) =
              (([reasonMarker ++ reason.toList, tsMarker ++ ts.toList, cbMarker ++ c.toList]).map (fun l => l ++ ['\n'])).flatten := by
            simp [List.append_assoc]
          rw [hBeq]
          refine takeBody_lines [reasonMarker ++ reason.toList, tsMarker ++ ts.toList, cbMarker ++ c.toList] ?_
          intro l hl
          simp only [List.mem_cons, List.not_mem_nil, or_false] at hl
          rcases hl with h | h | h
          · subst h
            exact marker_line_facts reasonMarker reason.toList '-' reasonMarker.tail
              (by decide) (by decide) (by decide) hr2
          · subst h
            exact marker_line_facts tsMarker ts.toList '-' tsMarker.tail
              (by decide) (by decide) (by decide) ht2
          · subst h
            exact marker_line_facts cbMarker c.toList '-' cbMarker.tail
              (by decide) (by decide) (by decide) hc2
        have hsecs : findSections ((waiversHeader.toList ++ ['\n']) ++ (headMarker ++ ('W' :: '-' :: (ds ++ '\n' :: ((reasonMarker ++ (reason.toList ++ ['\n'])) ++ ((tsMarker ++ (ts.toList ++ ['\n'])) ++ (cbMarker ++ (c.toList ++ ['\n'])))))))) =
            [("W-" ++ ds.asString, ((reasonMarker ++ (reason.toList ++ ['\n'])) ++ ((tsMarker ++ (ts.toList ++ ['\n'])) ++ (cbMarker ++ (c.toList ++ ['\n'])))))] := by
          rw [findSections_skip _ _ (concrete_no_marker headMarker
            (waiversHeader.toList ++ ['\n']) (headMarker ++ ('W' :: '-' :: (ds ++ '\n' :: ((reasonMarker ++ (reason.toList ++ ['\n'])) ++ ((tsMarker ++ (ts.toList ++ ['\n'])) ++ (cbMarker ++ (c.toList ++ ['\n']))))))) (by decide) (by decide))]
          rw [findSections_header _ ("W-" ++ ds.asString) ((reasonMarker ++ (reason.toList ++ ['\n'])) ++ ((tsMarker ++ (ts.toList ++ ['\n'])) ++ (cbMarker ++ (c.toList ++ ['\n'])))) []
            (tryHeader_entry ds ((reasonMarker ++ (reason.toList ++ ['\n'])) ++ ((tsMarker ++ (ts.toList ++ ['\n'])) ++ (cbMarker ++ (c.toList ++ ['\n'])))) hds1 hds2 htB)]
          rw [show findSections ([] : Str) = [] from rfl]
        have hsfr : searchField reasonMarker ((reasonMarker ++ (reason.toList ++ ['\n'])) ++ ((tsMarker ++ (ts.toList ++ ['\n'])) ++ (cbMarker ++ (c.toList ++ ['\n'])))) = some reason.toList := by
          rw [line_assoc reasonMarker reason.toList]
          exact searchField_found reasonMarker reason.toList _ (by decide) hr1 hr2
        have hsft : searchField tsMarker ((reasonMarker ++ (reason.toList ++ ['\n'])) ++ ((tsMarker ++ (ts.toList ++ ['\n'])) ++ (cbMarker ++ (c.toList ++ ['\n'])))) = some ts.toList := by
          rw [searchField_skip_line tsMarker reasonMarker reason.toList _
            (by decide) (by decide) (by decide) hr3 hr2]
          rw [line_assoc tsMarker ts.toList]
          exact searchField_found tsMarker ts.toList _ (by decide) ht1 ht2
        have hscb : searchField cbMarker ((reasonMarker ++ (reason.toList ++ ['\n'])) ++ ((tsMarker ++ (ts.toList ++ ['\n'])) ++ (cbMarker ++ (c.toList ++ ['\n'])))) = some c.toList := by
          rw [searchField_skip_line cbMarker reasonMarker reason.toList _
            (by decide) (by decide) (by decide) hr4 hr2]
          rw [searchField_skip_line cbMarker tsMarker ts.toList _
            (by decide) (by decide) (by decide) ht3 ht2]
          exact searchField_found cbMarker c.toList [] (by decide) hc1 hc2
        have hsr : searchRules ((reasonMarker ++ (reason.toList ++ ['\n'])) ++ ((tsMarker ++ (ts.toList ++ ['\n'])) ++ (cbMarker ++ (c.toList ++ ['\n'])))) = none := by
          rw [searchRules_skip_line reasonMarker reason.toList _ (by decide) hr5 hr2]
          rw [searchRules_skip_line tsMarker ts.toList _ (by decide) ht4 ht2]
          exact searchRules_skip_last cbMarker c.toList (by decide) hc3 hc2
        have hps : parseSection ("W-" ++ ds.asString) ((reasonMarker ++ (reason.toList ++ ['\n'])) ++ ((tsMarker ++ (ts.toList ++ ['\n'])) ++ (cbMarker ++ (c.toList ++ ['\n'])))) =
            some { waiver_id := "W-" ++ ds.asString, reason := reason, timestamp := ts, related_rules := ([] : List String), created_by := (some c) } := by
          simp only [parseSection, hsfr, hsft, hsr, hscb, Option.map_some', Option.map_none', mkWaiver, String.asString_toList, Option.getD_none]
        have hfmt2 : (format_waiver_entry ("W-" ++ ds.asString) reason ts ([] : List String) (some c)).toList =
            '\n' :: (headMarker ++ ('W' :: '-' :: (ds ++ '\n' :: ((reasonMarker ++ (reason.toList ++ ['\n'])) ++ ((tsMarker ++ (ts.toList ++ ['\n'])) ++ (cbMarker ++ (c.toList ++ ['\n']))))))) := by
          rw [format_waiver_entry_eq]
          show ("\n## Waiver: " ++ ("W-" ++ ds.asString) ++ "\n" ++ "- **Reason**: " ++
            reason ++ "\n" ++ "- **Timestamp**: " ++ ts ++ "\n" ++ (if c = "" then "" else "- **Created By**: " ++ c ++ "\n") ++
            "").toList = _
          rw [if_neg hc0]
          simp only [tl_append, dataHead, dataNl, dataWDash, dataReason, dataTs,
            dataCb, dataRules, dataBrNl, dataEmpty, tl_asString]
          simp [List.append_assoc]
        have hcontent : (append_to_waivers_file none { waiver_id := "W-" ++ ds.asString, reason := reason, timestamp := ts, related_rules := ([] : List String), created_by := (some c) }).toList =
            (waiversHeader.toList ++ ['\n']) ++ (headMarker ++ ('W' :: '-' :: (ds ++ '\n' :: ((reasonMarker ++ (reason.toList ++ ['\n'])) ++ ((tsMarker ++ (ts.toList ++ ['\n'])) ++ (cbMarker ++ (c.toList ++ ['\n']))))))) := by
          show (waiversHeader ++ format_waiver_entry ("W-" ++ ds.asString) reason ts ([] : List String) (some c)).toList = _
          rw [tl_append, hfmt2]
          simp [List.append_assoc]
        simp only [parse_waivers_file]
        rw [hcontent]
        simp only [parseWaiversContent]
        rw [hsecs]
        simp only [List.filterMap_cons, List.filterMap_nil, hps]
    | cons r0 rs =>
        obtain ⟨hc1, hc2, hc3⟩ := hcb c rfl
        have hc0 : ¬ (c = "") := fun he => hc1 (by rw [he]; rfl)
        have hjp := joinComma_props (r0 :: rs)
          (fun r hr => ⟨(hrrf r hr).1, (hrrf r hr).2.1, (hrrf r hr).2.2.1,
            (hrrf r hr).2.2.2.1⟩) (by simp)
        have hjnl : '\n' ∉ (joinComma (r0 :: rs)).toList ++ [']'] := by
          intro hmem
          rcases List.mem_append.mp hmem with h | h
          · exact hjp.2.1 h
          · exact absurd h (by decide)
        have htB : takeBody ((reasonMarker ++ (reason.toList ++ ['\n'])) ++ ((tsMarker ++ (ts.toList ++ ['\n'])) ++ ((cbMarker ++ (c.toList ++ ['\n'])) ++ (rulesMarker ++ (((joinComma (r0 :: rs)).toList ++ [']']) ++ ['\n']))))) = some (((reasonMarker ++ (reason.toList ++ ['\n'])) ++ ((tsMarker ++ (ts.toList ++ ['\n'])) ++ ((cbMarker ++ (c.toList ++ ['\n'])) ++ (rulesMarker ++ (((joinComma (r0 :: rs)).toList ++ [']']) ++ ['\n']))))), []) := by
          have hBeq : ((reasonMarker ++ (reason.toList ++ ['\n'])) ++ ((tsMarker ++ (ts.toList ++ ['\n'])) ++ ((cbMarker ++ (c.toList ++ ['\n'])) ++ (rulesMarker ++ (((joinComma (r0 :: rs)).toList ++ [']']) ++ ['\n']))))) =
              (([reasonMarker ++ reason.toList, tsMarker ++ ts.toList, cbMarker ++ c.toList, rulesMarker ++ ((joinComma (r0 :: rs)).toList ++ [']'])]).map (fun l => l ++ ['\n'])).flatten := by
            simp [List.append_assoc]
          rw [hBeq]
          refine takeBody_lines [reasonMarker ++ reason.toList, tsMarker ++ ts.toList, cbMarker ++ c.toList, rulesMarker ++ ((joinComma (r0 :: rs)).toList ++ [']'])] ?_
          intro l hl
          simp only [List.mem_cons, List.not_mem_nil, or_false] at hl
          rcases hl with h | h | h | h
          · subst h
            exact marker_line_facts reasonMarker reason.toList '-' reasonMarker.tail
              (by decide) (by decide) (by decide) hr2
          · subst h
            exact marker_line_facts tsMarker ts.toList '-' tsMarker.tail
              (by decide) (by decide) (by decide) ht2
          · subst h
            exact marker_line_facts cbMarker c.toList '-' cbMarker.tail
              (by decide) (by decide) (by decide) hc2
          · subst h
            exact marker_line_facts rulesMarker ((joinComma (r0 :: rs)).toList ++ [']']) '-' rulesMarker.tail
              (by decide) (by decide) (by decide) hjnl
        have hsecs : findSections ((waiversHeader.toList ++ ['\n']) ++ (headMarker ++ ('W' :: '-' :: (ds ++ '\n' :: ((reasonMarker ++ (reason.toList ++ ['\n'])) ++ ((tsMarker ++ (ts.toList ++ ['\n'])) ++ ((cbMarker ++ (c.toList ++ ['\n'])) ++ (rulesMarker ++ (((joinComma (r0 :: rs)).toList ++ [']']) ++ ['\n']))))))))) =
            [("W-" ++ ds.asString, ((reasonMarker ++ (reason.toList ++ ['\n'])) ++ ((tsMarker ++ (ts.toList ++ ['\n'])) ++ ((cbMarker ++ (c.toList ++ ['\n'])) ++ (rulesMarker ++ (((joinComma (r0 :: rs)).toList ++ [']']) ++ ['\n']))))))] := by
          rw [findSections_skip _ _ (concrete_no_marker headMarker
            (waiversHeader.toList ++ ['\n']) (headMarker ++ ('W' :: '-' :: (ds ++ '\n' :: ((reasonMarker ++ (reason.toList ++ ['\n'])) ++ ((tsMarker ++ (ts.toList ++ ['\n'])) ++ ((cbMarker ++ (c.toList ++ ['\n'])) ++ (rulesMarker ++ (((joinComma (r0 :: rs)).toList ++ [']']) ++ ['\n'])))))))) (by decide) (by decide))]
          rw [findSections_header _ ("W-" ++ ds.asString) ((reasonMarker ++ (reason.toList ++ ['\n'])) ++ ((tsMarker ++ (ts.toList ++ ['\n'])) ++ ((cbMarker ++ (c.toList ++ ['\n'])) ++ (rulesMarker ++ (((joinComma (r0 :: rs)).toList ++ [']']) ++ ['\n']))))) []
            (tryHeader_entry ds ((reasonMarker ++ (reason.toList ++ ['\n'])) ++ ((tsMarker ++ (ts.toList ++ ['\n'])) ++ ((cbMarker ++ (c.toList ++ ['\n'])) ++ (rulesMarker ++ (((joinComma (r0 :: rs)).toList ++ [']']) ++ ['\n']))))) hds1 hds2 htB)]
          rw [show findSections ([] : Str) = [] from rfl]
        have hsfr : searchField reasonMarker ((reasonMarker ++ (reason.toList ++ ['\n'])) ++ ((tsMarker ++ (ts.toList ++ ['\n'])) ++ ((cbMarker ++ (c.toList ++ ['\n'])) ++ (rulesMarker ++ (((joinComma (r0 :: rs)).toList ++ [']']) ++ ['\n']))))) = some reason.toList := by
          rw [line_assoc reasonMarker reason.toList]
          exact searchField_found reasonMarker reason.toList _ (by decide) hr1 hr2
        have hsft : searchField tsMarker ((reasonMarker ++ (reason.toList ++ ['\n'])) ++ ((tsMarker ++ (ts.toList ++ ['\n'])) ++ ((cbMarker ++ (c.toList ++ ['\n'])) ++ (rulesMarker ++ (((joinComma (r0 :: rs)).toList ++ [']']) ++ ['\n']))))) = some ts.toList := by
          rw [searchField_skip_line tsMarker reasonMarker reason.toList _
            (by decide) (by decide) (by decide) hr3 hr2]
          rw [line_assoc tsMarker ts.toList]
          exact searchField_found tsMarker ts.toList _ (by decide) ht1 ht2
        have hscb : searchField cbMarker ((reasonMarker ++ (reason.toList ++ ['\n'])) ++ ((tsMarker ++ (ts.toList ++ ['\n'])) ++ ((cbMarker ++ (c.toList ++ ['\n'])) ++ (rulesMarker ++ (((joinComma (r0 :: rs)).toList ++ [']']) ++ ['\n']))))) = some c.toList := by
          rw [searchField_skip_line cbMarker reasonMarker reason.toList _
            (by decide) (by decide) (by decide) hr4 hr2]
          rw [searchField_skip_line cbMarker tsMarker ts.toList _
            (by decide) (by decide) (by decide) ht3 ht2]
          rw [line_assoc cbMarker c.toList]
          exact searchField_found cbMarker c.toList _ (by decide) hc1 hc2
        have hsr : searchRules ((reasonMarker ++ (reason.toList ++ ['\n'])) ++ ((tsMarker ++ (ts.toList ++ ['\n'])) ++ ((cbMarker ++ (c.toList ++ ['\n'])) ++ (rulesMarker ++ (((joinComma (r0 :: rs)).toList ++ [']']) ++ ['\n']))))) = some ((joinComma (r0 :: rs)).toList) := by
          rw [searchRules_skip_line reasonMarker reason.toList _ (by decide) hr5 hr2]
          rw [searchRules_skip_line tsMarker ts.toList _ (by decide) ht4 ht2]
          rw [searchRules_skip_line cbMarker c.toList _ (by decide) hc3 hc2]
          rw [show (((joinComma (r0 :: rs)).toList ++ [']']) ++ ['\n'] : Str) =
            (joinComma (r0 :: rs)).toList ++ ']' :: ['\n'] from by simp]
          exact searchRules_found ((joinComma (r0 :: rs)).toList) ['\n'] hjp.1 hjp.2.1 hjp.2.2
        have hps : parseSection ("W-" ++ ds.asString) ((reasonMarker ++ (reason.toList ++ ['\n'])) ++ ((tsMarker ++ (ts.toList ++ ['\n'])) ++ ((cbMarker ++ (c.toList ++ ['\n'])) ++ (rulesMarker ++ (((joinComma (r0 :: rs)).toList ++ [']']) ++ ['\n']))))) =
            some { waiver_id := "W-" ++ ds.asString, reason := reason, timestamp := ts, related_rules := (r0 :: rs), created_by := (some c) } := by
          simp only [parseSection, hsfr, hsft, hsr, hscb, Option.map_some', mkWaiver, String.asString_toList, Option.getD_some]
          rw [split_join (r0 :: rs) (by simp)
            (fun r hr => ⟨(hrrf r hr).1, (hrrf r hr).2.2.1,
              (hrrf r hr).2.2.2.2.1, (hrrf r hr).2.2.2.2.2⟩)]
        have hfmt2 : (format_waiver_entry ("W-" ++ ds.asString) reason ts (r0 :: rs) (some c)).toList =
            '\n' :: (headMarker ++ ('W' :: '-' :: (ds ++ '\n' :: ((reasonMarker ++ (reason.toList ++ ['\n'])) ++ ((tsMarker ++ (ts.toList ++ ['\n'])) ++ ((cbMarker ++ (c.toList ++ ['\n'])) ++ (rulesMarker ++ (((joinComma (r0 :: rs)).toList ++ [']']) ++ ['\n'])))))))) := by
          rw [format_waiver_entry_eq]
          show ("\n## Waiver: " ++ ("W-" ++ ds.asString) ++ "\n" ++ "- **Reason**: " ++
            reason ++ "\n" ++ "- **Timestamp**: " ++ ts ++ "\n" ++ (if c = "" then "" else "- **Created By**: " ++ c ++ "\n") ++
            ("- **Related Rules**: [" ++ joinComma (r0 :: rs) ++ "]\n")).toList = _
          rw [if_neg hc0]
          simp only [tl_append, dataHead, dataNl, dataWDash, dataReason, dataTs,
            dataCb, dataRules, dataBrNl, dataEmpty, tl_asString]
          simp [List.append_assoc]
        have hcontent : (append_to_waivers_file none { waiver_id := "W-" ++ ds.asString, reason := reason, timestamp := ts, related_rules := (r0 :: rs), created_by := (some c) }).toList =
            (waiversHeader.toList ++ ['\n']) ++ (headMarker ++ ('W' :: '-' :: (ds ++ '\n' :: ((reasonMarker ++ (reason.toList ++ ['\n'])) ++ ((tsMarker ++ (ts.toList ++ ['\n'])) ++ ((cbMarker ++ (c.toList ++ ['\n'])) ++ (rulesMarker ++ (((joinComma (r0 :: rs)).toList ++ [']']) ++ ['\n'])))))))) := by
          show (waiversHeader ++ format_waiver_entry ("W-" ++ ds.asString) reason ts (r0 :: rs) (some c)).toList = _
          rw [tl_append, hfmt2]
          simp [List.append_assoc]
        simp only [parse_waivers_file]
        rw [hcontent]
        simp only [parseWaiversContent]
        rw [hsecs]
        simp only [List.filterMap_cons, List.filterMap_nil, hps]


/-- Witness for `waiver_round_trip` at a concrete waiver with two
related rules and an author. -/
theorem waiver_round_trip_witness :
    parse_waivers_file (some (append_to_waivers_file none
      { waiver_id := "W-" ++ (['0', '0', '2'] : Str).asString,
        reason := "Security exception approved", timestamp := "2025-01-01T00:00:00",
        related_rules := ["R-1", "R-2"], created_by := some "alice" })) =
      [{ waiver_id := "W-" ++ (['0', '0', '2'] : Str).asString,
         reason := "Security exception approved", timestamp := "2025-01-01T00:00:00",
         related_rules := ["R-1", "R-2"], created_by := some "alice" }] :=
  waiver_round_trip ['0', '0', '2'] "Security exception approved"
    "2025-01-01T00:00:00" ["R-1", "R-2"] (some "alice")
    (by decide) (by decide) (by decide) (by decide) (by decide) (by decide)
    (by decide) (by decide) (by decide) (by decide) (by decide)
    (fun c hc => by
      injection hc with h
      subst h
      exact ⟨by decide, by decide, by decide⟩)
    (by decide) (by decide)

end Governance
